import Mathlib

/-!
Verification of the T2S synthetic event-data generator (src/data.py, the
original generator, and src/v2_data.py, its extended revision).

The embedding models Python's `random` module by a tape of natural numbers:
every call to a `random` primitive consumes exactly one tape cell, and the
primitive maps that cell into its documented output range, so that a tape
cell ranging uniformly over the naturals makes `randint lo hi` the uniform
draw on `[lo, hi]`, `pick l` the uniform choice from `l`, and `randfloat`
the uniform unit draw at CPython's 53-bit float resolution.  The Faker
value provider is modelled as indexed streams of strings (`FakeSrc`), one
stream per provider method, consumed with a running counter.  Python dicts
with `.get(k, d)` defaults are modelled as total functions.
-/

/-- A stream of natural numbers driving the pseudo-random primitives. -/
def Tape : Type := Nat → Nat

/-- Drop the first cell of the tape. -/
def Tape.tl (t : Tape) : Tape := fun n => t (n + 1)

/-- Embeds `random.choice(l)`: a uniform index into `l`.  The default `d`
is returned for the empty list, where Python raises; every guarded call
site in the sources only reaches `pick` with a non-empty list. -/
def pick {α : Type} (l : List α) (t : Tape) (d : α) : α :=
  l.getD (t 0 % l.length) d

/-- Embeds `random.randint(lo, hi)`: the uniform draw from `[lo, hi]`. -/
def randint (lo hi : Int) (t : Tape) : Int :=
  lo + (t 0 : Int) % (hi - lo + 1)

/-- Embeds `random.random()`: the uniform draw from `[0, 1)` at CPython's
float resolution of 53 bits (`random()` returns `randbits(53) / 2**53`). -/
def randfloat (t : Tape) : ℚ :=
  ((t 0 % 9007199254740992 : Nat) : ℚ) / 9007199254740992

/-- Embeds `random.uniform(a, b) = a + (b - a) * random()`. -/
def randuniform (a b : ℚ) (t : Tape) : ℚ := a + (b - a) * randfloat t

/-- Embeds Python `round(x, 2)` on the rationals standing in for floats.
(Python rounds ties to even; this rounds them up.  No ticket price in the
sources sits exactly on a tie, and no claim depends on tie-breaking.) -/
def round2 (x : ℚ) : ℚ := ((⌊x * 100 + 1/2⌋ : Int) : ℚ) / 100

/-- A user record, as the tuple built by `generate_users`. -/
structure User where
  first_name : String
  last_name : String
  email : String
  password_hash : String
  phone : String
  role : String
  created_at : String
  updated_at : String
  deriving DecidableEq

/-- A registration record, as the tuple built by `generate_registrations`. -/
structure Registration where
  user_id : Nat
  event_id : Nat
  ticket_id : Nat
  quantity : Int
  total_amount : ℚ
  status : String
  registered_at : String
  payment_status : String
  deriving DecidableEq

/-- A ticket record, as the tuple built by the ticket-generation stages. -/
structure Ticket where
  event_id : Nat
  ticket_type : String
  price : ℚ
  quantity_available : Int
  quantity_sold : Int
  sales_start : String
  sales_end : String
  created_at : String
  deriving DecidableEq

/-- A payment record, as the tuple built by `generate_payments`. -/
structure Payment where
  registration_id : Nat
  user_id : Nat
  amount : ℚ
  payment_method : String
  transaction_id : String
  payment_status : String
  paid_at : String
  deriving DecidableEq

/-- A waitlist record, as the tuple built by `generate_waitlists`. -/
structure Waitlist where
  event_id : Nat
  user_id : Nat
  joined_at : String
  status : String
  deriving DecidableEq

/-- The Faker value provider, modelled as indexed streams: the `k`-th call
of a run reads index `k` of the stream for the method called. -/
structure FakeSrc where
  firstName : Nat → String
  lastName : Nat → String
  dateTime : Nat → String
  futureDt : Nat → String
  uuid : Nat → String

/-- The area-code table of `generate_phone_number`, with the
`.get(city, ['800'])` default. -/
def area_codes (city : String) : List String :=
  if city = "Dallas" then ["214", "469", "972"]
  else if city = "Philadelphia" then ["215", "267", "445"]
  else if city = "New York" then ["212", "646", "718", "917"]
  else ["800"]

/-- Embeds `generate_phone_number` (identical in both source files):
one area-code choice and two `randint` draws, three tape cells. -/
def generate_phone_number (city : String) (t : Tape) : String :=
  let area_code := pick (area_codes city) t "800"
  area_code ++ "-" ++ toString (randint 200 999 t.tl) ++ "-" ++
    toString (randint 1000 9999 t.tl.tl)

/-- The city list of `generate_users`. -/
def cities : List String := ["Dallas", "Philadelphia", "New York"]

/-- `['attendee'] * 80 + ['organizer'] * 15 + ['admin'] * 5`. -/
def rolesBase : List String :=
  List.replicate 80 "attendee" ++ List.replicate 15 "organizer" ++
    List.replicate 5 "admin"

/-- Swap the elements at positions `i` and `j` of a list (identity when
either index is out of bounds; `random.shuffle` only swaps in bounds). -/
def listSwap {α : Type} (l : List α) (i j : Nat) : List α :=
  match l.get? i, l.get? j with
  | some a, some b => (l.set i b).set j a
  | _, _ => l

/-- The Fisher–Yates tail of CPython's `random.shuffle`: for indices
`i, i-1, ..., 1` swap position `i` with `j = randbelow(i + 1)`. -/
def shuffleAux {α : Type} : List α → Tape → Nat → List α × Tape
  | l, t, 0 => (l, t)
  | l, t, i + 1 => shuffleAux (listSwap l (i + 1) (t 0 % (i + 2))) t.tl i

/-- Embeds `random.shuffle` (CPython's Fisher–Yates, one tape cell per
swapped index). -/
def shuffle {α : Type} (l : List α) (t : Tape) : List α × Tape :=
  shuffleAux l t (l.length - 1)

/-- The `for i in range(500)` loop of `generate_users` (identical bodies
in src/data.py and src/v2_data.py).  `timeMs` is the wall-clock value
`int(time.time() * 1000)` observed at the iteration (the source adds `i`
to it); `k` counts Faker calls; each iteration consumes four tape cells
(city choice plus three in `generate_phone_number`). -/
def genUsersLoop (f : FakeSrc) (roles : List String) (timeMs : Nat) :
    Nat → Nat → Nat → Tape → List User → List User × Tape
  | _, 0, _, t, acc => (acc, t)
  | i, fuel + 1, k, t, acc =>
    let first_name := f.firstName k
    let last_name := f.lastName (k + 1)
    let timestamp := timeMs + i
    let email := first_name.toLower ++ "." ++ last_name.toLower ++ "." ++
      toString timestamp ++ "@example.com"
    let password_hash := "hash" ++ toString i
    let city := pick cities t ""
    let phone := generate_phone_number city t.tl
    let role := roles.getD (i % 100) ""
    let created_at := f.dateTime (k + 2)
    let u : User := ⟨first_name, last_name, email, password_hash, phone,
      role, created_at, created_at⟩
    genUsersLoop f roles timeMs (i + 1) fuel (k + 3) t.tl.tl.tl.tl (acc ++ [u])

/-- Embeds `generate_users` (identical bodies in src/data.py and
src/v2_data.py): shuffle the role pool, then emit 500 users. -/
def generate_users (f : FakeSrc) (timeMs : Nat) (t : Tape) :
    List User × Tape :=
  let s := shuffle rolesBase t
  genUsersLoop f s.1 timeMs 0 500 0 s.2 []

/-- The mutable state of a `generate_registrations` loop other than the
attempt counter: the emitted registrations, the `tickets_remaining` ledger
(a dict read with `.get(_, 0)`, hence a total function), the tape, and the
Faker call counter. -/
structure RegCore where
  regs : List Registration
  remaining : Nat → Int
  t : Tape
  k : Nat

namespace V1

/-- One draw of src/data.py `generate_registrations`: the loop body after
`attempts += 1` (which the body never reads).  Discarded draws consume the
tape cells of the choices made before the failing check, exactly as the
source consumes its generator. -/
def regTry (user_ids event_ids : List Nat) (ticket_map : Nat → List Nat)
    (ticket_prices : Nat → ℚ) (f : FakeSrc) (c : RegCore) : RegCore :=
  let user_id := pick user_ids c.t 0
  let t1 := Tape.tl c.t
  let event_id := pick event_ids t1 0
  let t2 := Tape.tl t1
  let possible_tickets := ticket_map event_id
  if possible_tickets = [] then { c with t := t2 } else
  let ticket_id := pick possible_tickets t2 0
  let t3 := Tape.tl t2
  let available := c.remaining ticket_id
  if available ≤ 0 then { c with t := t3 } else
  let q0 := randint 1 5 t3
  let t4 := Tape.tl t3
  let quantity := if available < q0 then available else q0
  let total_amount := round2 ((quantity : ℚ) * ticket_prices ticket_id)
  let registered_at := f.dateTime c.k
  let payment_status := if randfloat t4 < 2/5 then "paid" else "unpaid"
  let r : Registration := ⟨user_id, event_id, ticket_id, quantity,
    total_amount, "confirmed", registered_at, payment_status⟩
  { regs := c.regs ++ [r],
    remaining := fun tid =>
      if tid = ticket_id then c.remaining tid - quantity else c.remaining tid,
    t := Tape.tl t4,
    k := c.k + 1 }

/-- The `while` loop of src/data.py `generate_registrations`, indexed by
fuel.  Run with `fuel = 2500 * 10 - attempts`, the zero-fuel branch is
unreachable: the guard `attempts < 2500 * 10` fails first, so
`regLoop 25000 0` is exactly the source loop started on a fresh state,
and each recursive call is one iteration, incrementing `attempts` once. -/
def regLoop (user_ids event_ids : List Nat) (ticket_map : Nat → List Nat)
    (ticket_prices : Nat → ℚ) (f : FakeSrc) :
    Nat → Nat → RegCore → RegCore × Nat
  | 0, attempts, c => (c, attempts)
  | fuel + 1, attempts, c =>
    if c.regs.length < 2500 ∧ attempts < 2500 * 10 then
      regLoop user_ids event_ids ticket_map ticket_prices f fuel
        (attempts + 1)
        (regTry user_ids event_ids ticket_map ticket_prices f c)
    else (c, attempts)

/-- Embeds src/data.py `generate_registrations`. -/
def generate_registrations (user_ids event_ids : List Nat)
    (ticket_map : Nat → List Nat) (ticket_prices : Nat → ℚ)
    (tickets_remaining : Nat → Int) (f : FakeSrc) (t : Tape) :
    List Registration :=
  (regLoop user_ids event_ids ticket_map ticket_prices f 25000 0
    ⟨[], tickets_remaining, t, 0⟩).1.regs

end V1

/-- The mutable state of the src/v2_data.py `generate_registrations` loop
other than the attempt counter: as `RegCore` plus the `event_reg_totals`
ledger (a dict read with `.get(_, 0)`, hence a total function). -/
structure V2Core where
  regs : List Registration
  remaining : Nat → Int
  totals : Nat → Int
  t : Tape
  k : Nat

namespace V2

/-- One draw of src/v2_data.py `generate_registrations`: the loop body
after `attempts += 1`, including the event-level capacity check. -/
def regTry (user_ids event_ids : List Nat) (ticket_map : Nat → List Nat)
    (ticket_prices : Nat → ℚ) (event_capacities : Nat → Int) (f : FakeSrc)
    (c : V2Core) : V2Core :=
  let user_id := pick user_ids c.t 0
  let t1 := Tape.tl c.t
  let event_id := pick event_ids t1 0
  let t2 := Tape.tl t1
  let possible_tickets := ticket_map event_id
  if possible_tickets = [] then { c with t := t2 } else
  let ticket_id := pick possible_tickets t2 0
  let t3 := Tape.tl t2
  let available := c.remaining ticket_id
  if available ≤ 0 then { c with t := t3 } else
  let remaining_capacity := event_capacities event_id - c.totals event_id
  if remaining_capacity ≤ 0 then { c with t := t3 } else
  let quantity := randint 1 (min (min 5 available) remaining_capacity) t3
  let t4 := Tape.tl t3
  let total_amount := round2 ((quantity : ℚ) * ticket_prices ticket_id)
  let registered_at := f.dateTime c.k
  let payment_status := if randfloat t4 < 2/5 then "paid" else "unpaid"
  let r : Registration := ⟨user_id, event_id, ticket_id, quantity,
    total_amount, "confirmed", registered_at, payment_status⟩
  { regs := c.regs ++ [r],
    remaining := fun tid =>
      if tid = ticket_id then c.remaining tid - quantity else c.remaining tid,
    totals := fun e =>
      if e = event_id then c.totals e + quantity else c.totals e,
    t := Tape.tl t4,
    k := c.k + 1 }

/-- The `while` loop of src/v2_data.py `generate_registrations`, indexed
by fuel exactly as `V1.regLoop`. -/
def regLoop (user_ids event_ids : List Nat) (ticket_map : Nat → List Nat)
    (ticket_prices : Nat → ℚ) (event_capacities : Nat → Int) (f : FakeSrc) :
    Nat → Nat → V2Core → V2Core × Nat
  | 0, attempts, c => (c, attempts)
  | fuel + 1, attempts, c =>
    if c.regs.length < 2500 ∧ attempts < 2500 * 10 then
      regLoop user_ids event_ids ticket_map ticket_prices event_capacities f
        fuel (attempts + 1)
        (regTry user_ids event_ids ticket_map ticket_prices event_capacities f c)
    else (c, attempts)

/-- Embeds src/v2_data.py `generate_registrations` (the caller in `main`
passes `event_reg_totals = {}`, i.e. the all-zero total function). -/
def generate_registrations (user_ids event_ids : List Nat)
    (ticket_map : Nat → List Nat) (ticket_prices : Nat → ℚ)
    (tickets_remaining : Nat → Int) (event_capacities : Nat → Int)
    (event_reg_totals : Nat → Int) (f : FakeSrc) (t : Tape) :
    List Registration :=
  (regLoop user_ids event_ids ticket_map ticket_prices event_capacities f
    25000 0 ⟨[], tickets_remaining, event_reg_totals, t, 0⟩).1.regs

end V2

/-- `enumerate(l)` starting at index `i`. -/
def enumFrom {α : Type} : Nat → List α → List (Nat × α)
  | _, [] => []
  | i, a :: l => (i, a) :: enumFrom (i + 1) l

/-- `[(i, reg) for i, reg in enumerate(registrations) if
reg.payment_status == 'paid']` of `generate_payments`. -/
def paidRegs (registrations : List Registration) : List (Nat × Registration) :=
  (enumFrom 0 registrations).filter fun p => p.2.payment_status = "paid"

/-- The payment-method pool of `generate_payments`. -/
def payment_methods : List String :=
  ["credit_card", "paypal", "bank_transfer", "cash"]

/-- The per-item body of `generate_payments`' loop: one tape cell for the
method choice, two Faker calls (uuid and paid_at) per payment. -/
def paymentsLoop (f : FakeSrc) :
    List (Nat × Registration) → Nat → Tape → List Payment
  | [], _, _ => []
  | (idx, reg) :: rest, k, t =>
    let payment_method := pick payment_methods t ""
    let transaction_id := "txn_" ++ f.uuid k
    let paid_at := f.dateTime (k + 1)
    ⟨idx + 1, reg.user_id, reg.total_amount, payment_method, transaction_id,
      "completed", paid_at⟩ :: paymentsLoop f rest (k + 2) (Tape.tl t)

/-- Embeds `generate_payments` (identical bodies in both source files):
the first 1000 paid registrations in original order, keyed by their
1-based position. -/
def generate_payments (registrations : List Registration) (f : FakeSrc)
    (t : Tape) : List Payment :=
  paymentsLoop f ((paidRegs registrations).take 1000) 0 t

/-- The `quantity_sold` update loop of both `main`s (the Reconciliation
Step): for `ticket_id, t in enumerate(tickets, 1)`,
`sold = orig_available - tickets_remaining.get(ticket_id, 0)` then
`sold = min(sold, orig_available)`. -/
def reconcileAux (remaining : Nat → Int) : Nat → List Ticket → List Ticket
  | _, [] => []
  | tid, tk :: rest =>
    let sold := min (tk.quantity_available - remaining tid) tk.quantity_available
    { tk with quantity_sold := sold } :: reconcileAux remaining (tid + 1) rest

/-- The Reconciliation Step applied to a ticket table, tickets keyed from 1. -/
def reconcile (tickets : List Ticket) (remaining : Nat → Int) : List Ticket :=
  reconcileAux remaining 1 tickets

/-- The `tickets_remaining` dict both `main`s build:
`{tid: t[3] for tid, t in enumerate(tickets, 1)}`, read with `.get(_, 0)`. -/
def remainingInit (tickets : List Ticket) : Nat → Int := fun tid =>
  if tid = 0 then 0
  else ((tickets.get? (tid - 1)).map Ticket.quantity_available).getD 0

/-- Embeds `write_to_csv`'s effect on one file: skip when the file already
exists and `--force` is not set, otherwise write the rows. -/
def writeCsvTickets (existing : Option (List Ticket)) (force : Bool)
    (data : List Ticket) : Option (List Ticket) :=
  if existing.isSome ∧ force = false then existing else some data

/-- The content of csv/tickets.csv across src/data.py `main`: the export
at ticket creation, then the export of the reconciled tickets after the
`quantity_sold` update (no other write in `main` targets this file). -/
def ticketsCsvFinal (initial : Option (List Ticket)) (force : Bool)
    (tickets : List Ticket) (remaining : Nat → Int) :
    Option (List Ticket) :=
  writeCsvTickets (writeCsvTickets initial force tickets) force
    (reconcile tickets remaining)

namespace V2

/-- The per-event body of src/v2_data.py `generate_tickets`: the GA draw
bounded by `capacity // 2`, the VIP draw bounded by what the GA draw left,
four tape cells (two quantity draws, two price draws) and six Faker calls
per event. -/
def genTicketsLoop (event_capacities : Nat → Int) (f : FakeSrc) :
    List Nat → Nat → Tape → List Ticket
  | [], _, _ => []
  | event_id :: rest, k, t =>
    let capacity := event_capacities event_id
    let ga_lower := min 300 (Int.fdiv capacity 2)
    let ga_upper := min 1000 (Int.fdiv capacity 2)
    let ga_quantity := randint ga_lower ga_upper t
    let remaining_capacity := capacity - ga_quantity
    let vip_lower := min 300 remaining_capacity
    let vip_upper := min 600 remaining_capacity
    let vip_quantity := randint vip_lower vip_upper (Tape.tl t)
    let gaT : Ticket := ⟨event_id, "General Admission",
      round2 (randuniform 20 50 t.tl.tl), ga_quantity, 0,
      f.dateTime k, f.futureDt (k + 1), f.dateTime (k + 2)⟩
    let vipT : Ticket := ⟨event_id, "VIP",
      round2 (randuniform 50 150 t.tl.tl.tl), vip_quantity, 0,
      f.dateTime (k + 3), f.futureDt (k + 4), f.dateTime (k + 5)⟩
    gaT :: vipT :: genTicketsLoop event_capacities f rest (k + 6) t.tl.tl.tl.tl

/-- Embeds src/v2_data.py `generate_tickets`. -/
def generate_tickets (event_ids : List Nat) (event_capacities : Nat → Int)
    (f : FakeSrc) (t : Tape) : List Ticket :=
  genTicketsLoop event_capacities f event_ids 0 t

/-- Embeds src/v2_data.py `calculate_total_registrations`, as the total
function the built defaultdict computes (read with `.get(_, 0)`): the sum
of `quantity` per event. -/
def calculate_total_registrations : List Registration → Nat → Int
  | [], _ => 0
  | r :: rest, e =>
    (if r.event_id = e then r.quantity else 0) +
      calculate_total_registrations rest e

end V2

/-- Embeds `random.sample(pool, n)`: `n` draws without replacement, in
selection order, one tape cell per draw (CPython's selection-sampling
internals differ but realise the same without-replacement contract).
`d` is returned on an exhausted pool, where Python raises; the only call
site clamps `n` to the pool size. -/
def sample {α : Type} (d : α) : List α → Nat → Tape → List α × Tape
  | _, 0, t => ([], t)
  | pool, n + 1, t =>
    let i := t 0 % pool.length
    let s := sample d (pool.eraseIdx i) n (Tape.tl t)
    (pool.getD i d :: s.1, s.2)

/-- The waitlist status pool of src/v2_data.py `generate_waitlists`. -/
def waitStatuses : List String := ["waiting", "notified", "registered"]

/-- The inner loop of `generate_waitlists`: one entry per sampled user,
one Faker call and one tape cell (status choice) per entry. -/
def waitEntries (event_id : Nat) (f : FakeSrc) :
    List Nat → Nat → Tape → List Waitlist × Nat × Tape
  | [], k, t => ([], k, t)
  | u :: us, k, t =>
    let w : Waitlist := ⟨event_id, u, f.dateTime k, pick waitStatuses t ""⟩
    let s := waitEntries event_id f us (k + 1) (Tape.tl t)
    (w :: s.1, s.2)

/-- The per-event body of src/v2_data.py `generate_waitlists`: events
whose registered total reaches capacity get `min(randint(min_waitlist,
max_waitlist), len(user_ids))` sampled users. -/
def genWaitLoop (user_ids : List Nat) (total_regs event_capacities : Nat → Int)
    (min_waitlist max_waitlist : Int) (f : FakeSrc) :
    List Nat → Nat → Tape → List Waitlist
  | [], _, _ => []
  | event_id :: rest, k, t =>
    if event_capacities event_id ≤ total_regs event_id then
      let num_waitlist := randint min_waitlist max_waitlist t
      let s := sample 0 user_ids (min num_waitlist.toNat user_ids.length)
        (Tape.tl t)
      let e := waitEntries event_id f s.1 k s.2
      e.1 ++ genWaitLoop user_ids total_regs event_capacities min_waitlist
        max_waitlist f rest e.2.1 e.2.2
    else
      genWaitLoop user_ids total_regs event_capacities min_waitlist
        max_waitlist f rest k t

/-- Embeds src/v2_data.py `generate_waitlists` (`main` passes the bounds
10 and 50 and the totals from `calculate_total_registrations`). -/
def generate_waitlists (user_ids event_ids : List Nat)
    (total_regs event_capacities : Nat → Int)
    (min_waitlist max_waitlist : Int) (f : FakeSrc) (t : Tape) :
    List Waitlist :=
  genWaitLoop user_ids total_regs event_capacities min_waitlist max_waitlist
    f event_ids 0 t

/-- Sum of `quantity` over the registrations of event `e` (the quantity a
capacity claim charges against the event). -/
def eventSum (e : Nat) (l : List Registration) : Int :=
  ((l.filter fun r => r.event_id = e).map Registration.quantity).sum

/-- Sum of `quantity` over the registrations drawing on ticket `tid`. -/
def ticketSum (tid : Nat) (l : List Registration) : Int :=
  ((l.filter fun r => r.ticket_id = tid).map Registration.quantity).sum

/-- Number of paid registrations. -/
def countPaid (l : List Registration) : Nat :=
  (l.filter fun r => r.payment_status = "paid").length

/-- Concrete scenario for the capacity counterexamples: one user, one
event of capacity 3 (`capsCex`), one ticket with 10 remaining seats. -/
def tmCex : Nat → List Nat := fun _ => [1]

/-- Ticket prices of the concrete scenario. -/
def tpCex : Nat → ℚ := fun _ => 10

/-- Ticket inventory of the concrete scenario. -/
def remCex : Nat → Int := fun _ => 10

/-- Event capacities of the concrete scenario. -/
def capsCex : Nat → Int := fun _ => 3

/-- Constant Faker streams for concrete runs. -/
def fakeCex : FakeSrc :=
  ⟨fun _ => "Ann", fun _ => "Lee", fun _ => "d", fun _ => "fd", fun _ => "u"⟩

/-- Tape whose fourth cell makes `randint 1 5` draw 5, all other
primitives taking their first option. -/
def tapeCex : Tape := fun n => if n = 3 then 4 else 0

/-- The all-zero tape. -/
def zeroTape : Tape := fun _ => 0

/-- The registration the concrete scenario's first draw emits under
src/data.py: quantity 5 against an event of remaining capacity 3. -/
def regCex : Registration := ⟨1, 1, 1, 5, 50, "confirmed", "d", "paid"⟩

/-- A concrete ticket for the sink and reconciliation scenarios. -/
def ticketCexA : Ticket := ⟨1, "General Admission", 30, 10, 0, "s", "e", "c"⟩

/-- The user tuple all but the email field: what remains of a user once
the wall-clock-dependent field is erased. -/
def User.stripEmail (u : User) :
    String × String × String × String × String × String × String :=
  (u.first_name, u.last_name, u.password_hash, u.phone, u.role,
    u.created_at, u.updated_at)

/-- The fresh state src/v2_data.py's `main` hands its registration loop in
the concrete scenario (empty registrations, inventory `remCex`, empty
`event_reg_totals`). -/
def coreCex : V2Core := ⟨[], remCex, fun _ => 0, tapeCex, 0⟩

/-- The payment generated from `[regCex]` with constant Faker streams and
the all-zero tape. -/
def payCex : Payment := ⟨1, 1, 50, "credit_card", "txn_u", "completed", "d"⟩

theorem randint_le (lo hi : Int) (t : Tape) (h : lo ≤ hi) :
    lo ≤ randint lo hi t ∧ randint lo hi t ≤ hi := by
  unfold randint
  have h1 : (0 : Int) < hi - lo + 1 := by omega
  have h2 := Int.emod_nonneg (t 0 : Int) (by omega : hi - lo + 1 ≠ 0)
  have h3 := Int.emod_lt_of_pos (t 0 : Int) h1
  omega

theorem eventSum_append (e : Nat) (l1 l2 : List Registration) :
    eventSum e (l1 ++ l2) = eventSum e l1 + eventSum e l2 := by
  unfold eventSum
  rw [List.filter_append, List.map_append, List.sum_append]

theorem eventSum_single (e : Nat) (r : Registration) :
    eventSum e [r] = if r.event_id = e then r.quantity else 0 := by
  unfold eventSum
  by_cases h : r.event_id = e <;> simp [h]

theorem ticketSum_append (tid : Nat) (l1 l2 : List Registration) :
    ticketSum tid (l1 ++ l2) = ticketSum tid l1 + ticketSum tid l2 := by
  unfold ticketSum
  rw [List.filter_append, List.map_append, List.sum_append]

theorem ticketSum_single (tid : Nat) (r : Registration) :
    ticketSum tid [r] = if r.ticket_id = tid then r.quantity else 0 := by
  unfold ticketSum
  by_cases h : r.ticket_id = tid <;> simp [h]

theorem v1_regTry_spec (uids eids : List Nat) (tm : Nat → List Nat)
    (tp : Nat → ℚ) (f : FakeSrc) (c : RegCore) :
    ((V1.regTry uids eids tm tp f c).regs = c.regs ∧
      (V1.regTry uids eids tm tp f c).remaining = c.remaining) ∨
    ∃ r : Registration,
      0 < c.remaining r.ticket_id ∧ 1 ≤ r.quantity ∧
      r.quantity ≤ c.remaining r.ticket_id ∧ r.quantity ≤ 5 ∧
      (V1.regTry uids eids tm tp f c).regs = c.regs ++ [r] ∧
      (V1.regTry uids eids tm tp f c).remaining = fun tid =>
        if tid = r.ticket_id then c.remaining tid - r.quantity
        else c.remaining tid := by
  unfold V1.regTry
  by_cases h1 : tm (pick eids (Tape.tl c.t) 0) = []
  · left
    exact ⟨by simp [h1], by simp [h1]⟩
  · simp only [if_neg h1]
    by_cases h2 :
        c.remaining (pick (tm (pick eids (Tape.tl c.t) 0))
          (Tape.tl (Tape.tl c.t)) 0) ≤ 0
    · left
      exact ⟨by simp [h1, h2], by simp [h1, h2]⟩
    · simp only [if_neg h2]
      right
      have hb := randint_le 1 5
        (Tape.tl (Tape.tl (Tape.tl c.t))) (by norm_num)
      refine ⟨_, ?_, ?_, ?_, ?_, rfl, rfl⟩ <;> dsimp only <;> omega

theorem v2_regTry_spec (uids eids : List Nat) (tm : Nat → List Nat)
    (tp : Nat → ℚ) (caps : Nat → Int) (f : FakeSrc) (c : V2Core) :
    ((V2.regTry uids eids tm tp caps f c).regs = c.regs ∧
      (V2.regTry uids eids tm tp caps f c).remaining = c.remaining ∧
      (V2.regTry uids eids tm tp caps f c).totals = c.totals) ∨
    ∃ r : Registration,
      0 < c.remaining r.ticket_id ∧
      0 < caps r.event_id - c.totals r.event_id ∧
      1 ≤ r.quantity ∧ r.quantity ≤ c.remaining r.ticket_id ∧
      r.quantity ≤ 5 ∧
      r.quantity ≤ caps r.event_id - c.totals r.event_id ∧
      (V2.regTry uids eids tm tp caps f c).regs = c.regs ++ [r] ∧
      (V2.regTry uids eids tm tp caps f c).remaining = (fun tid =>
        if tid = r.ticket_id then c.remaining tid - r.quantity
        else c.remaining tid) ∧
      (V2.regTry uids eids tm tp caps f c).totals = fun e =>
        if e = r.event_id then c.totals e + r.quantity else c.totals e := by
  unfold V2.regTry
  by_cases h1 : tm (pick eids (Tape.tl c.t) 0) = []
  · left
    exact ⟨by simp [h1], by simp [h1], by simp [h1]⟩
  · simp only [if_neg h1]
    by_cases h2 :
        c.remaining (pick (tm (pick eids (Tape.tl c.t) 0))
          (Tape.tl (Tape.tl c.t)) 0) ≤ 0
    · left
      exact ⟨by simp [h1, h2], by simp [h1, h2], by simp [h1, h2]⟩
    · simp only [if_neg h2]
      by_cases h3 :
          caps (pick eids (Tape.tl c.t) 0) -
            c.totals (pick eids (Tape.tl c.t) 0) ≤ 0
      · left
        exact ⟨by simp [h1, h2, h3], by simp [h1, h2, h3],
          by simp [h1, h2, h3]⟩
      · simp only [if_neg h3]
        right
        have hb := randint_le 1
          (min (min 5 (c.remaining (pick (tm (pick eids (Tape.tl c.t) 0))
            (Tape.tl (Tape.tl c.t)) 0)))
            (caps (pick eids (Tape.tl c.t) 0) -
              c.totals (pick eids (Tape.tl c.t) 0)))
          (Tape.tl (Tape.tl (Tape.tl c.t)))
          (by simp only [le_min_iff] ; omega)
        refine ⟨_, ?_, ?_, ?_, ?_, ?_, ?_, rfl, rfl, rfl⟩ <;> dsimp only <;>
          simp only [le_min_iff] at hb <;> omega

theorem v1_loop_rel (uids eids : List Nat) (tm : Nat → List Nat)
    (tp : Nat → ℚ) (f : FakeSrc) (R : RegCore → RegCore → Prop)
    (hrefl : ∀ a, R a a)
    (htrans : ∀ a b c, R a b → R b c → R a c)
    (hstep : ∀ c, R c (V1.regTry uids eids tm tp f c)) :
    ∀ fuel a c, R c (V1.regLoop uids eids tm tp f fuel a c).1 := by
  intro fuel
  induction fuel with
  | zero => intro a c; exact hrefl c
  | succ n ih =>
    intro a c
    unfold V1.regLoop
    split
    · exact htrans _ _ _ (hstep c) (ih _ _)
    · exact hrefl c

theorem v2_loop_rel (uids eids : List Nat) (tm : Nat → List Nat)
    (tp : Nat → ℚ) (caps : Nat → Int) (f : FakeSrc)
    (R : V2Core → V2Core → Prop)
    (hrefl : ∀ a, R a a)
    (htrans : ∀ a b c, R a b → R b c → R a c)
    (hstep : ∀ c, R c (V2.regTry uids eids tm tp caps f c)) :
    ∀ fuel a c, R c (V2.regLoop uids eids tm tp caps f fuel a c).1 := by
  intro fuel
  induction fuel with
  | zero => intro a c; exact hrefl c
  | succ n ih =>
    intro a c
    unfold V2.regLoop
    split
    · exact htrans _ _ _ (hstep c) (ih _ _)
    · exact hrefl c

theorem v1_loop_prefix (uids eids : List Nat) (tm : Nat → List Nat)
    (tp : Nat → ℚ) (f : FakeSrc) (fuel a : Nat) (c : RegCore) :
    ∃ l, (V1.regLoop uids eids tm tp f fuel a c).1.regs = c.regs ++ l := by
  refine v1_loop_rel uids eids tm tp f
    (fun x y => ∃ l, y.regs = x.regs ++ l) (fun x => ⟨[], by simp⟩)
    (fun x y z ⟨l1, h1⟩ ⟨l2, h2⟩ => ⟨l1 ++ l2, by rw [h2, h1, List.append_assoc]⟩)
    (fun x => ?_) fuel a c
  rcases v1_regTry_spec uids eids tm tp f x with ⟨h, _⟩ | ⟨r, _, _, _, _, h, _⟩
  · exact ⟨[], by simp [h]⟩
  · exact ⟨[r], h⟩

theorem v2_loop_prefix (uids eids : List Nat) (tm : Nat → List Nat)
    (tp : Nat → ℚ) (caps : Nat → Int) (f : FakeSrc) (fuel a : Nat)
    (c : V2Core) :
    ∃ l, (V2.regLoop uids eids tm tp caps f fuel a c).1.regs = c.regs ++ l := by
  refine v2_loop_rel uids eids tm tp caps f
    (fun x y => ∃ l, y.regs = x.regs ++ l) (fun x => ⟨[], by simp⟩)
    (fun x y z ⟨l1, h1⟩ ⟨l2, h2⟩ => ⟨l1 ++ l2, by rw [h2, h1, List.append_assoc]⟩)
    (fun x => ?_) fuel a c
  rcases v2_regTry_spec uids eids tm tp caps f x with
    ⟨h, _, _⟩ | ⟨r, _, _, _, _, _, _, h, _, _⟩
  · exact ⟨[], by simp [h]⟩
  · exact ⟨[r], h⟩

theorem v1_loop_eventSum_mono (uids eids : List Nat) (tm : Nat → List Nat)
    (tp : Nat → ℚ) (f : FakeSrc) (e : Nat) (fuel a : Nat) (c : RegCore) :
    eventSum e c.regs ≤
      eventSum e (V1.regLoop uids eids tm tp f fuel a c).1.regs := by
  refine v1_loop_rel uids eids tm tp f
    (fun x y => eventSum e x.regs ≤ eventSum e y.regs) (fun x => le_refl _)
    (fun x y z h1 h2 => le_trans h1 h2) (fun x => ?_) fuel a c
  rcases v1_regTry_spec uids eids tm tp f x with
    ⟨h, _⟩ | ⟨r, _, hq, _, _, h, _⟩
  · rw [h]
  · rw [h, eventSum_append, eventSum_single]
    split <;> omega

theorem v1_loop_ledger (uids eids : List Nat) (tm : Nat → List Nat)
    (tp : Nat → ℚ) (f : FakeSrc) (fuel a : Nat) (c : RegCore) (tid : Nat) :
    (V1.regLoop uids eids tm tp f fuel a c).1.remaining tid =
      c.remaining tid -
        (ticketSum tid (V1.regLoop uids eids tm tp f fuel a c).1.regs -
          ticketSum tid c.regs) := by
  have h := v1_loop_rel uids eids tm tp f
    (fun x y => ∀ i, y.remaining i =
      x.remaining i - (ticketSum i y.regs - ticketSum i x.regs))
    (fun x i => by omega)
    (fun x y z h1 h2 i => by have := h1 i; have := h2 i; omega)
    (fun x i => ?_) fuel a c tid
  · omega
  rcases v1_regTry_spec uids eids tm tp f x with
    ⟨h, h2⟩ | ⟨r, _, _, _, _, h, h2⟩
  · rw [h, h2]
    omega
  · rw [h, h2, ticketSum_append, ticketSum_single]
    by_cases hi : i = r.ticket_id
    · simp only [if_pos hi, hi, if_true]
      omega
    · have hi2 : ¬ r.ticket_id = i := fun hh => hi hh.symm
      simp only [if_neg hi, if_neg hi2]
      omega

theorem v2_loop_ledger (uids eids : List Nat) (tm : Nat → List Nat)
    (tp : Nat → ℚ) (caps : Nat → Int) (f : FakeSrc) (fuel a : Nat)
    (c : V2Core) (tid : Nat) :
    (V2.regLoop uids eids tm tp caps f fuel a c).1.remaining tid =
      c.remaining tid -
        (ticketSum tid (V2.regLoop uids eids tm tp caps f fuel a c).1.regs -
          ticketSum tid c.regs) := by
  have h := v2_loop_rel uids eids tm tp caps f
    (fun x y => ∀ i, y.remaining i =
      x.remaining i - (ticketSum i y.regs - ticketSum i x.regs))
    (fun x i => by omega)
    (fun x y z h1 h2 i => by have := h1 i; have := h2 i; omega)
    (fun x i => ?_) fuel a c tid
  · omega
  rcases v2_regTry_spec uids eids tm tp caps f x with
    ⟨h, h2, _⟩ | ⟨r, _, _, _, _, _, _, h, h2, _⟩
  · rw [h, h2]
    omega
  · rw [h, h2, ticketSum_append, ticketSum_single]
    by_cases hi : i = r.ticket_id
    · simp only [if_pos hi, hi, if_true]
      omega
    · have hi2 : ¬ r.ticket_id = i := fun hh => hi hh.symm
      simp only [if_neg hi, if_neg hi2]
      omega

theorem v1_loop_rem_bounds (uids eids : List Nat) (tm : Nat → List Nat)
    (tp : Nat → ℚ) (f : FakeSrc) (fuel a : Nat) (c : RegCore) :
    ∀ tid, (V1.regLoop uids eids tm tp f fuel a c).1.remaining tid ≤
        c.remaining tid ∧
      (0 ≤ c.remaining tid →
        0 ≤ (V1.regLoop uids eids tm tp f fuel a c).1.remaining tid) := by
  refine v1_loop_rel uids eids tm tp f
    (fun x y => ∀ i, y.remaining i ≤ x.remaining i ∧
      (0 ≤ x.remaining i → 0 ≤ y.remaining i))
    (fun x i => by omega)
    (fun x y z h1 h2 i => by have := h1 i; have := h2 i; omega)
    (fun x i => ?_) fuel a c
  rcases v1_regTry_spec uids eids tm tp f x with
    ⟨_, h2⟩ | ⟨r, hpos, hq1, hqr, _, _, h2⟩
  · rw [h2]
    omega
  · rw [h2]
    by_cases hi : i = r.ticket_id
    · simp only [if_pos hi, hi, if_true]
      omega
    · simp only [if_neg hi]
      omega

theorem v2_loop_rem_bounds (uids eids : List Nat) (tm : Nat → List Nat)
    (tp : Nat → ℚ) (caps : Nat → Int) (f : FakeSrc) (fuel a : Nat)
    (c : V2Core) :
    ∀ tid, (V2.regLoop uids eids tm tp caps f fuel a c).1.remaining tid ≤
        c.remaining tid ∧
      (0 ≤ c.remaining tid →
        0 ≤ (V2.regLoop uids eids tm tp caps f fuel a c).1.remaining tid) := by
  refine v2_loop_rel uids eids tm tp caps f
    (fun x y => ∀ i, y.remaining i ≤ x.remaining i ∧
      (0 ≤ x.remaining i → 0 ≤ y.remaining i))
    (fun x i => by omega)
    (fun x y z h1 h2 i => by have := h1 i; have := h2 i; omega)
    (fun x i => ?_) fuel a c
  rcases v2_regTry_spec uids eids tm tp caps f x with
    ⟨_, h2, _⟩ | ⟨r, hpos, _, hq1, hqr, _, _, _, h2, _⟩
  · rw [h2]
    omega
  · rw [h2]
    by_cases hi : i = r.ticket_id
    · simp only [if_pos hi, hi, if_true]
      omega
    · simp only [if_neg hi]
      omega

theorem v2_loop_totals (uids eids : List Nat) (tm : Nat → List Nat)
    (tp : Nat → ℚ) (caps : Nat → Int) (f : FakeSrc) (fuel a : Nat)
    (c : V2Core) (e : Nat) :
    (V2.regLoop uids eids tm tp caps f fuel a c).1.totals e =
      c.totals e +
        (eventSum e (V2.regLoop uids eids tm tp caps f fuel a c).1.regs -
          eventSum e c.regs) := by
  have h := v2_loop_rel uids eids tm tp caps f
    (fun x y => ∀ i, y.totals i =
      x.totals i + (eventSum i y.regs - eventSum i x.regs))
    (fun x i => by omega)
    (fun x y z h1 h2 i => by have := h1 i; have := h2 i; omega)
    (fun x i => ?_) fuel a c e
  · omega
  rcases v2_regTry_spec uids eids tm tp caps f x with
    ⟨h, _, h3⟩ | ⟨r, _, _, _, _, _, _, h, _, h3⟩
  · rw [h, h3]
    omega
  · rw [h, h3, eventSum_append, eventSum_single]
    by_cases hi : i = r.event_id
    · simp only [if_pos hi, hi, if_true]
      omega
    · have hi2 : ¬ r.event_id = i := fun hh => hi hh.symm
      simp only [if_neg hi, if_neg hi2]
      omega

theorem v2_loop_totals_le_caps (uids eids : List Nat) (tm : Nat → List Nat)
    (tp : Nat → ℚ) (caps : Nat → Int) (f : FakeSrc) (fuel a : Nat)
    (c : V2Core) (hc : ∀ e, c.totals e ≤ caps e) :
    ∀ e, (V2.regLoop uids eids tm tp caps f fuel a c).1.totals e ≤ caps e := by
  have h := v2_loop_rel uids eids tm tp caps f
    (fun x y => (∀ i, x.totals i ≤ caps i) → ∀ i, y.totals i ≤ caps i)
    (fun x h => h)
    (fun x y z h1 h2 h0 => h2 (h1 h0))
    (fun x h0 i => ?_) fuel a c hc
  · exact h
  rcases v2_regTry_spec uids eids tm tp caps f x with
    ⟨_, _, h3⟩ | ⟨r, _, hcap, _, _, _, hqcap, _, _, h3⟩
  · rw [h3]
    exact h0 i
  · rw [h3]
    have := h0 i
    have := h0 r.event_id
    by_cases hi : i = r.event_id
    · simp only [if_pos hi, hi, if_true] at *
      omega
    · simp only [if_neg hi]
      omega

theorem v1_loop_len (uids eids : List Nat) (tm : Nat → List Nat)
    (tp : Nat → ℚ) (f : FakeSrc) :
    ∀ fuel a c, c.regs.length ≤ 2500 →
      (V1.regLoop uids eids tm tp f fuel a c).1.regs.length ≤ 2500 := by
  intro fuel
  induction fuel with
  | zero => intro a c h; exact h
  | succ n ih =>
    intro a c h
    unfold V1.regLoop
    by_cases hg : c.regs.length < 2500 ∧ a < 2500 * 10
    · rw [if_pos hg]
      apply ih
      rcases v1_regTry_spec uids eids tm tp f c with
        ⟨he, _⟩ | ⟨r, _, _, _, _, he, _⟩
      · rw [he]
        omega
      · rw [he, List.length_append, List.length_singleton]
        omega
    · rw [if_neg hg]
      exact h

theorem v2_loop_len (uids eids : List Nat) (tm : Nat → List Nat)
    (tp : Nat → ℚ) (caps : Nat → Int) (f : FakeSrc) :
    ∀ fuel a c, c.regs.length ≤ 2500 →
      (V2.regLoop uids eids tm tp caps f fuel a c).1.regs.length ≤ 2500 := by
  intro fuel
  induction fuel with
  | zero => intro a c h; exact h
  | succ n ih =>
    intro a c h
    unfold V2.regLoop
    by_cases hg : c.regs.length < 2500 ∧ a < 2500 * 10
    · rw [if_pos hg]
      apply ih
      rcases v2_regTry_spec uids eids tm tp caps f c with
        ⟨he, _, _⟩ | ⟨r, _, _, _, _, _, _, he, _, _⟩
      · rw [he]
        omega
      · rw [he, List.length_append, List.length_singleton]
        omega
    · rw [if_neg hg]
      exact h

theorem v1_loop_attempts (uids eids : List Nat) (tm : Nat → List Nat)
    (tp : Nat → ℚ) (f : FakeSrc) :
    ∀ fuel a c, a ≤ 2500 * 10 →
      (V1.regLoop uids eids tm tp f fuel a c).2 ≤ 2500 * 10 := by
  intro fuel
  induction fuel with
  | zero => intro a c h; exact h
  | succ n ih =>
    intro a c h
    unfold V1.regLoop
    by_cases hg : c.regs.length < 2500 ∧ a < 2500 * 10
    · rw [if_pos hg]
      exact ih (a + 1) _ (by omega)
    · rw [if_neg hg]
      exact h

theorem v2_loop_attempts (uids eids : List Nat) (tm : Nat → List Nat)
    (tp : Nat → ℚ) (caps : Nat → Int) (f : FakeSrc) :
    ∀ fuel a c, a ≤ 2500 * 10 →
      (V2.regLoop uids eids tm tp caps f fuel a c).2 ≤ 2500 * 10 := by
  intro fuel
  induction fuel with
  | zero => intro a c h; exact h
  | succ n ih =>
    intro a c h
    unfold V2.regLoop
    by_cases hg : c.regs.length < 2500 ∧ a < 2500 * 10
    · rw [if_pos hg]
      exact ih (a + 1) _ (by omega)
    · rw [if_neg hg]
      exact h

theorem v1_loop_fuel_invariant (uids eids : List Nat) (tm : Nat → List Nat)
    (tp : Nat → ℚ) (f : FakeSrc) :
    ∀ fuel1 fuel2 a c, 2500 * 10 - a ≤ fuel1 → 2500 * 10 - a ≤ fuel2 →
      V1.regLoop uids eids tm tp f fuel1 a c =
        V1.regLoop uids eids tm tp f fuel2 a c := by
  intro fuel1
  induction fuel1 with
  | zero =>
    intro fuel2 a c h1 h2
    match fuel2 with
    | 0 => rfl
    | m + 1 =>
      show _ = V1.regLoop uids eids tm tp f (m + 1) a c
      unfold V1.regLoop
      rw [if_neg (by omega)]
  | succ n ih =>
    intro fuel2 a c h1 h2
    match fuel2 with
    | 0 =>
      show V1.regLoop uids eids tm tp f (n + 1) a c = _
      unfold V1.regLoop
      rw [if_neg (by omega)]
    | m + 1 =>
      show V1.regLoop uids eids tm tp f (n + 1) a c =
        V1.regLoop uids eids tm tp f (m + 1) a c
      unfold V1.regLoop
      by_cases hg : c.regs.length < 2500 ∧ a < 2500 * 10
      · rw [if_pos hg, if_pos hg]
        exact ih m (a + 1) _ (by omega) (by omega)
      · rw [if_neg hg, if_neg hg]

theorem v2_loop_fuel_invariant (uids eids : List Nat) (tm : Nat → List Nat)
    (tp : Nat → ℚ) (caps : Nat → Int) (f : FakeSrc) :
    ∀ fuel1 fuel2 a c, 2500 * 10 - a ≤ fuel1 → 2500 * 10 - a ≤ fuel2 →
      V2.regLoop uids eids tm tp caps f fuel1 a c =
        V2.regLoop uids eids tm tp caps f fuel2 a c := by
  intro fuel1
  induction fuel1 with
  | zero =>
    intro fuel2 a c h1 h2
    match fuel2 with
    | 0 => rfl
    | m + 1 =>
      show _ = V2.regLoop uids eids tm tp caps f (m + 1) a c
      unfold V2.regLoop
      rw [if_neg (by omega)]
  | succ n ih =>
    intro fuel2 a c h1 h2
    match fuel2 with
    | 0 =>
      show V2.regLoop uids eids tm tp caps f (n + 1) a c = _
      unfold V2.regLoop
      rw [if_neg (by omega)]
    | m + 1 =>
      show V2.regLoop uids eids tm tp caps f (n + 1) a c =
        V2.regLoop uids eids tm tp caps f (m + 1) a c
      unfold V2.regLoop
      by_cases hg : c.regs.length < 2500 ∧ a < 2500 * 10
      · rw [if_pos hg, if_pos hg]
        exact ih m (a + 1) _ (by omega) (by omega)
      · rw [if_neg hg, if_neg hg]

theorem v1_regTry_empty_map (uids eids : List Nat) (tm : Nat → List Nat)
    (tp : Nat → ℚ) (f : FakeSrc) (c : RegCore) (htm : ∀ e, tm e = []) :
    (V1.regTry uids eids tm tp f c).regs = c.regs := by
  unfold V1.regTry
  simp [htm]

theorem v1_loop_empty_map (uids eids : List Nat) (tm : Nat → List Nat)
    (tp : Nat → ℚ) (f : FakeSrc) (fuel a : Nat) (c : RegCore)
    (htm : ∀ e, tm e = []) :
    (V1.regLoop uids eids tm tp f fuel a c).1.regs = c.regs :=
  v1_loop_rel uids eids tm tp f (fun x y => y.regs = x.regs)
    (fun _ => rfl) (fun _ _ _ h1 h2 => h2.trans h1)
    (fun x => v1_regTry_empty_map uids eids tm tp f x htm) fuel a c

theorem ticketSum_nil (tid : Nat) : ticketSum tid [] = 0 := rfl

theorem eventSum_nil (e : Nat) : eventSum e [] = 0 := rfl

/-- C8: for every input, `generate_registrations` terminates: the loop
runs at most `10 * 2500 = 25000` iterations (each iteration increments
the attempt counter exactly once — in the embedding each recursive call
of `regLoop` is one iteration and adds one to `attempts`, so the final
attempt counter of a fresh run, bounded here by 25000, counts the
iterations), the result holds at most 2500 registrations, and fewer than
2500 is possible: when the ticket map holds no tickets the result is
empty.  The
conjuncts equating the loop at fuel `25000 + n` with the loop at fuel
25000 show the fuel never truncates the source's `while` loop.  Both
src/data.py and src/v2_data.py are covered. -/
theorem c8_generate_registrations_terminates (uids eids : List Nat)
    (tm : Nat → List Nat) (tp : Nat → ℚ) (rem : Nat → Int)
    (caps totals0 : Nat → Int) (f : FakeSrc) (t : Tape) (n : Nat) :
    (V1.generate_registrations uids eids tm tp rem f t).length ≤ 2500 ∧
    (V1.regLoop uids eids tm tp f 25000 0 ⟨[], rem, t, 0⟩).2 ≤ 2500 * 10 ∧
    V1.regLoop uids eids tm tp f (25000 + n) 0 ⟨[], rem, t, 0⟩ =
      V1.regLoop uids eids tm tp f 25000 0 ⟨[], rem, t, 0⟩ ∧
    (V2.generate_registrations uids eids tm tp rem caps totals0 f t).length
      ≤ 2500 ∧
    (V2.regLoop uids eids tm tp caps f 25000 0
      ⟨[], rem, totals0, t, 0⟩).2 ≤ 2500 * 10 ∧
    V2.regLoop uids eids tm tp caps f (25000 + n) 0
        ⟨[], rem, totals0, t, 0⟩ =
      V2.regLoop uids eids tm tp caps f 25000 0 ⟨[], rem, totals0, t, 0⟩ ∧
    ((∀ e, tm e = []) →
      V1.generate_registrations uids eids tm tp rem f t = []) := by
  refine ⟨?_, ?_, ?_, ?_, ?_, ?_, ?_⟩
  · exact v1_loop_len uids eids tm tp f 25000 0 ⟨[], rem, t, 0⟩ (by simp)
  · exact v1_loop_attempts uids eids tm tp f 25000 0 ⟨[], rem, t, 0⟩
      (by omega)
  · exact v1_loop_fuel_invariant uids eids tm tp f (25000 + n) 25000 0
      ⟨[], rem, t, 0⟩ (by omega) (by omega)
  · exact v2_loop_len uids eids tm tp caps f 25000 0
      ⟨[], rem, totals0, t, 0⟩ (by simp)
  · exact v2_loop_attempts uids eids tm tp caps f 25000 0
      ⟨[], rem, totals0, t, 0⟩ (by omega)
  · exact v2_loop_fuel_invariant uids eids tm tp caps f (25000 + n) 25000 0
      ⟨[], rem, totals0, t, 0⟩ (by omega) (by omega)
  · exact fun htm => v1_loop_empty_map uids eids tm tp f 25000 0
      ⟨[], rem, t, 0⟩ htm

/-- C9: after `generate_registrations` returns, for every ticket id the
initial `tickets_remaining` value minus the final ledger value equals the
sum of the `quantity` fields of the returned registrations for that
ticket: the in-place ledger mutation exactly accounts for the emitted
registrations, in both src/data.py and src/v2_data.py. -/
theorem c9_ledger_matches_registrations (uids eids : List Nat)
    (tm : Nat → List Nat) (tp : Nat → ℚ) (rem : Nat → Int)
    (caps totals0 : Nat → Int) (f : FakeSrc) (t : Tape) (tid : Nat) :
    rem tid -
        (V1.regLoop uids eids tm tp f 25000 0
          ⟨[], rem, t, 0⟩).1.remaining tid =
      ticketSum tid (V1.generate_registrations uids eids tm tp rem f t) ∧
    rem tid -
        (V2.regLoop uids eids tm tp caps f 25000 0
          ⟨[], rem, totals0, t, 0⟩).1.remaining tid =
      ticketSum tid
        (V2.generate_registrations uids eids tm tp rem caps totals0 f t) := by
  constructor
  · have h := v1_loop_ledger uids eids tm tp f 25000 0 ⟨[], rem, t, 0⟩ tid
    rw [ticketSum_nil] at h
    dsimp only at h
    unfold V1.generate_registrations
    omega
  · have h := v2_loop_ledger uids eids tm tp caps f 25000 0
      ⟨[], rem, totals0, t, 0⟩ tid
    rw [ticketSum_nil] at h
    dsimp only at h
    unfold V2.generate_registrations
    omega

theorem v1_loop_step (uids eids : List Nat) (tm : Nat → List Nat)
    (tp : Nat → ℚ) (f : FakeSrc) (fuel a : Nat) (c : RegCore)
    (h : c.regs.length < 2500 ∧ a < 2500 * 10) :
    V1.regLoop uids eids tm tp f (fuel + 1) a c =
      V1.regLoop uids eids tm tp f fuel (a + 1)
        (V1.regTry uids eids tm tp f c) := by
  conv_lhs => rw [V1.regLoop]
  rw [if_pos h]

theorem v1_first_draw_cex :
    eventSum 1
        (V1.regTry [1] [1] tmCex tpCex fakeCex ⟨[], remCex, tapeCex, 0⟩).regs
      = 5 := by
  decide

theorem v1_first_draw_shape_cex :
    (V1.regTry [1] [1] tmCex tpCex fakeCex
        ⟨[], remCex, tapeCex, 0⟩).regs.map
      (fun r => (r.ticket_id, r.quantity)) = [(1, 5)] := by
  decide

theorem v1_generate_registrations_def (uids eids : List Nat)
    (tm : Nat → List Nat) (tp : Nat → ℚ) (rem : Nat → Int) (f : FakeSrc)
    (t : Tape) :
    V1.generate_registrations uids eids tm tp rem f t =
      (V1.regLoop uids eids tm tp f 25000 0 ⟨[], rem, t, 0⟩).1.regs := rfl

theorem v2_generate_registrations_def (uids eids : List Nat)
    (tm : Nat → List Nat) (tp : Nat → ℚ) (rem : Nat → Int)
    (caps totals0 : Nat → Int) (f : FakeSrc) (t : Tape) :
    V2.generate_registrations uids eids tm tp rem caps totals0 f t =
      (V2.regLoop uids eids tm tp caps f 25000 0
        ⟨[], rem, totals0, t, 0⟩).1.regs := rfl

/-- C1 is false as stated of src/data.py: its `generate_registrations`
(cited by the claim) checks only ticket inventory, never event capacity.
In the concrete scenario — one event of capacity 3 (`capsCex`), one
ticket with 10 remaining seats — the returned registrations for event 1
already sum past the capacity: the first draw alone books quantity 5. -/
theorem c1_counterexample_v1 :
    capsCex 1 <
      eventSum 1 (V1.generate_registrations [1] [1] tmCex tpCex remCex
        fakeCex tapeCex) := by
  rw [v1_generate_registrations_def]
  have h25 : (25000 : Nat) = 24999 + 1 := by norm_num
  rw [h25, v1_loop_step [1] [1] tmCex tpCex fakeCex 24999 0
    ⟨[], remCex, tapeCex, 0⟩ ⟨by simp, by norm_num⟩, Nat.zero_add]
  have hmono := v1_loop_eventSum_mono [1] [1] tmCex tpCex fakeCex 1 24999 1
    (V1.regTry [1] [1] tmCex tpCex fakeCex ⟨[], remCex, tapeCex, 0⟩)
  have h5 := v1_first_draw_cex
  have hc : capsCex 1 = 3 := rfl
  omega

/-- C1 (amended): the ledger invariant `consumed(event) ≤ capacity(event)`
holds of src/v2_data.py `generate_registrations` (started, as its `main`
does, with empty `event_reg_totals`), both after every loop iteration
(second conjunct: one draw preserves it) and for the returned
registrations (first conjunct: per-event quantity sums stay within
capacity).  src/data.py enforces only ticket inventory, so there the
claim fails (see the counterexample). -/
theorem c1_amended_event_capacity_v2 (uids eids : List Nat)
    (tm : Nat → List Nat) (tp : Nat → ℚ) (rem : Nat → Int)
    (caps : Nat → Int) (f : FakeSrc) (t : Tape) (hcaps : ∀ e, 0 ≤ caps e) :
    (∀ e, eventSum e (V2.generate_registrations uids eids tm tp rem caps
      (fun _ => 0) f t) ≤ caps e) ∧
    (∀ c : V2Core, (∀ e, c.totals e ≤ caps e) →
      ∀ e, (V2.regTry uids eids tm tp caps f c).totals e ≤ caps e) := by
  constructor
  · intro e
    have ht := v2_loop_totals uids eids tm tp caps f 25000 0
      ⟨[], rem, fun _ => 0, t, 0⟩ e
    have hb := v2_loop_totals_le_caps uids eids tm tp caps f 25000 0
      ⟨[], rem, fun _ => 0, t, 0⟩ (fun e2 => by dsimp only; exact hcaps e2) e
    dsimp only at ht
    rw [eventSum_nil] at ht
    rw [v2_generate_registrations_def]
    omega
  · intro c hc e
    rcases v2_regTry_spec uids eids tm tp caps f c with
      ⟨_, _, h3⟩ | ⟨r, _, _, _, _, _, hqcap, _, _, h3⟩
    · rw [h3]
      exact hc e
    · rw [h3]
      have h1 := hc e
      have h2 := hc r.event_id
      by_cases hi : e = r.event_id
      · simp only [hi, if_true] at *
        omega
      · simp only [if_neg hi]
        exact h1

/-- C2 is false as stated of src/data.py: there the quantity is drawn as
`randint(1, 5)` clamped to the ticket's remaining inventory, ignoring the
event's remaining capacity.  In the concrete scenario (event capacity 3,
ticket inventory 10) the first emitted registration has quantity 5,
outside [1, min(5, remaining, remaining_capacity)] = [1, 3]. -/
theorem c2_counterexample_v1 :
    ((V1.generate_registrations [1] [1] tmCex tpCex remCex fakeCex
        tapeCex).head?).map (fun r => (r.ticket_id, r.quantity)) =
      some (1, 5) ∧
    min (min 5 (remCex 1)) (capsCex 1) = 3 := by
  constructor
  · rw [v1_generate_registrations_def]
    have h25 : (25000 : Nat) = 24999 + 1 := by norm_num
    rw [h25, v1_loop_step [1] [1] tmCex tpCex fakeCex 24999 0
      ⟨[], remCex, tapeCex, 0⟩ ⟨by simp, by norm_num⟩, Nat.zero_add]
    obtain ⟨l, hl⟩ := v1_loop_prefix [1] [1] tmCex tpCex fakeCex 24999 1
      (V1.regTry [1] [1] tmCex tpCex fakeCex ⟨[], remCex, tapeCex, 0⟩)
    rw [hl]
    have hshape := v1_first_draw_shape_cex
    cases hcr : (V1.regTry [1] [1] tmCex tpCex fakeCex
        ⟨[], remCex, tapeCex, 0⟩).regs with
    | nil =>
      rw [hcr] at hshape
      simp at hshape
    | cons a tail =>
      rw [hcr] at hshape
      simp only [List.map_cons, List.cons.injEq] at hshape
      simp only [List.cons_append, List.head?_cons, Option.map_some]
      exact congrArg some hshape.1
  · have h1 : remCex 1 = 10 := rfl
    have h2 : capsCex 1 = 3 := rfl
    omega

/-- C2 (amended): the claim holds of src/v2_data.py: whenever a draw
passes the three feasibility checks, the emitted registration's quantity
is the `randint` draw — the uniform primitive — on the interval
[1, min(5, remaining(ticket), remaining_capacity(event))], and
payment_status is paid exactly when the uniform unit draw is below 0.4
(so paid with probability 0.4). -/
theorem c2_amended_quantity_uniform_v2 (uids eids : List Nat)
    (tm : Nat → List Nat) (tp : Nat → ℚ) (caps : Nat → Int) (f : FakeSrc)
    (c : V2Core) (e0 tid0 : Nat)
    (he : e0 = pick eids (Tape.tl c.t) 0)
    (htid : tid0 = pick (tm e0) (Tape.tl (Tape.tl c.t)) 0)
    (hne : ¬ tm e0 = [])
    (hav : 0 < c.remaining tid0)
    (hcap : 0 < caps e0 - c.totals e0) :
    ∃ r : Registration,
      (V2.regTry uids eids tm tp caps f c).regs = c.regs ++ [r] ∧
      r.quantity =
        randint 1 (min (min 5 (c.remaining tid0)) (caps e0 - c.totals e0))
          (Tape.tl (Tape.tl (Tape.tl c.t))) ∧
      1 ≤ r.quantity ∧
      r.quantity ≤ min (min 5 (c.remaining tid0)) (caps e0 - c.totals e0) ∧
      r.payment_status =
        (if randfloat (Tape.tl (Tape.tl (Tape.tl (Tape.tl c.t)))) < 2/5
          then "paid" else "unpaid") := by
  subst he
  subst htid
  have h2 : ¬ c.remaining (pick (tm (pick eids (Tape.tl c.t) 0))
      (Tape.tl (Tape.tl c.t)) 0) ≤ 0 := by omega
  have h3 : ¬ caps (pick eids (Tape.tl c.t) 0) -
      c.totals (pick eids (Tape.tl c.t) 0) ≤ 0 := by omega
  have hb := randint_le 1
    (min (min 5 (c.remaining (pick (tm (pick eids (Tape.tl c.t) 0))
      (Tape.tl (Tape.tl c.t)) 0)))
      (caps (pick eids (Tape.tl c.t) 0) -
        c.totals (pick eids (Tape.tl c.t) 0)))
    (Tape.tl (Tape.tl (Tape.tl c.t)))
    (by simp only [le_min_iff]; omega)
  unfold V2.regTry
  simp only [if_neg hne, if_neg h2, if_neg h3]
  exact ⟨_, rfl, rfl, hb.1, hb.2, rfl⟩

theorem generate_users_def (f : FakeSrc) (timeMs : Nat) (t : Tape) :
    generate_users f timeMs t =
      genUsersLoop f (shuffle rolesBase t).1 timeMs 0 500 0
        (shuffle rolesBase t).2 [] := rfl

theorem genUsersLoop_step (f : FakeSrc) (roles : List String)
    (timeMs i fuel k : Nat) (t : Tape) (acc : List User) :
    genUsersLoop f roles timeMs i (fuel + 1) k t acc =
      genUsersLoop f roles timeMs (i + 1) fuel (k + 3)
        (Tape.tl (Tape.tl (Tape.tl (Tape.tl t))))
        (acc ++ [⟨f.firstName k, f.lastName (k + 1),
          (f.firstName k).toLower ++ "." ++ (f.lastName (k + 1)).toLower ++
            "." ++ toString (timeMs + i) ++ "@example.com",
          "hash" ++ toString i,
          generate_phone_number (pick cities t "") (Tape.tl t),
          roles.getD (i % 100) "",
          f.dateTime (k + 2), f.dateTime (k + 2)⟩]) := rfl

theorem genUsersLoop_acc (f : FakeSrc) (roles : List String) (timeMs : Nat) :
    ∀ fuel i k t acc,
      (genUsersLoop f roles timeMs i fuel k t acc).1 =
        acc ++ (genUsersLoop f roles timeMs i fuel k t []).1 := by
  intro fuel
  induction fuel with
  | zero => intro i k t acc; simp [genUsersLoop]
  | succ n ih =>
    intro i k t acc
    rw [genUsersLoop_step, genUsersLoop_step, List.nil_append]
    rw [ih (i + 1) (k + 3) _ (acc ++ [_]), ih (i + 1) (k + 3) _ [_]]
    rw [List.append_assoc]

theorem genUsersLoop_time (f : FakeSrc) (roles : List String) (t1 t2 : Nat) :
    ∀ fuel i k t acc1 acc2,
      acc1.map User.stripEmail = acc2.map User.stripEmail →
      ((genUsersLoop f roles t1 i fuel k t acc1).1.map User.stripEmail =
        (genUsersLoop f roles t2 i fuel k t acc2).1.map User.stripEmail) ∧
      (genUsersLoop f roles t1 i fuel k t acc1).2 =
        (genUsersLoop f roles t2 i fuel k t acc2).2 := by
  intro fuel
  induction fuel with
  | zero => intro i k t acc1 acc2 h; exact ⟨h, rfl⟩
  | succ n ih =>
    intro i k t acc1 acc2 h
    rw [genUsersLoop_step, genUsersLoop_step]
    refine ih (i + 1) (k + 3) _ _ _ ?_
    rw [List.map_append, List.map_append, h]
    rfl

theorem users_head_email_cex (timeMs : Nat) :
    (((generate_users fakeCex timeMs zeroTape).1.map User.email).head?) =
      some ((fakeCex.firstName 0).toLower ++ "." ++
        (fakeCex.lastName (0 + 1)).toLower ++ "." ++
        toString (timeMs + 0) ++ "@example.com") := by
  rw [generate_users_def]
  have h500 : (500 : Nat) = 499 + 1 := by norm_num
  rw [h500, genUsersLoop_step, List.nil_append, genUsersLoop_acc]
  simp only [List.cons_append, List.nil_append, List.map_cons,
    List.head?_cons]

/-- C3 is false: `generate_users` (both source files) embeds the
wall-clock reading `int(time.time() * 1000)` in every email, so two runs
with the same seed — identical random tape and identical Faker streams —
but different wall-clock readings (here 0 ms and 1 ms) produce different
user tuples, breaking byte-identical reproducibility. -/
theorem c3_counterexample_wallclock :
    (generate_users fakeCex 0 zeroTape).1 ≠
      (generate_users fakeCex 1 zeroTape).1 := by
  intro hEq
  have h := congrArg (fun l => (l.map User.email).head?) hEq
  dsimp only at h
  rw [users_head_email_cex 0, users_head_email_cex 1,
    Option.some.injEq] at h
  have hd := congrArg String.data h
  simp only [String.data_append, List.append_assoc] at hd
  have h1 := List.append_cancel_left hd
  have h2 := List.append_cancel_left h1
  have h3 := List.append_cancel_left h2
  have h4 := List.append_cancel_left h3
  exact absurd h4 (by decide)

/-- C3 (amended): with the same seed (same tape, same Faker streams) and
the same policy constants, every field of every generated user except the
email is identical across runs regardless of the wall clock, and the
random tape is consumed identically; full byte-identity additionally
requires the two runs to observe the same wall-clock milliseconds, since
emails embed `int(time.time() * 1000)`. -/
theorem c3_amended_determinism_modulo_clock (f : FakeSrc) (t : Tape)
    (t1 t2 : Nat) :
    (generate_users f t1 t).1.map User.stripEmail =
      (generate_users f t2 t).1.map User.stripEmail ∧
    (generate_users f t1 t).2 = (generate_users f t2 t).2 := by
  rw [generate_users_def, generate_users_def]
  exact genUsersLoop_time f (shuffle rolesBase t).1 t1 t2 500 0 0
    (shuffle rolesBase t).2 [] [] rfl

/-- C4 fails on src/data.py's default runs: in `main`, csv/tickets.csv is
written at ticket creation, the database is updated, and the second
`write_to_csv` of the reconciled tickets is then SKIPPED because the file
already exists and `--force` is not set — the export keeps the stale
`quantity_sold = 0` rows.  Concretely: a fresh run (no pre-existing
file, `force = false`) over one ticket with 10 available and 7 remaining
leaves the export holding the original ticket, although the reconciled
table differs. -/
theorem c4_export_keeps_stale_quantity_sold :
    ticketsCsvFinal none false [ticketCexA] (fun _ => 7) =
      some [ticketCexA] ∧
    reconcile [ticketCexA] (fun _ => 7) ≠ [ticketCexA] := by
  constructor
  · decide
  · decide

theorem remainingInit_nonneg (tickets : List Ticket)
    (hqa : ∀ tk ∈ tickets, 0 ≤ tk.quantity_available) (tid : Nat) :
    0 ≤ remainingInit tickets tid := by
  unfold remainingInit
  split
  · exact le_refl 0
  · cases h : tickets.get? (tid - 1) with
    | none => exact le_refl 0
    | some tk =>
      simp only [Option.map_some', Option.getD_some]
      exact hqa tk (List.get?_mem h)

theorem remainingInit_get (tickets : List Ticket) (i : Nat) (tk : Ticket)
    (h : tickets.get? i = some tk) :
    remainingInit tickets (i + 1) = tk.quantity_available := by
  unfold remainingInit
  rw [if_neg (by omega : ¬ (i + 1 = 0))]
  have h1 : i + 1 - 1 = i := by omega
  rw [h1, h]
  rfl

theorem reconcileAux_get (rem : Nat → Int) :
    ∀ (l : List Ticket) (base i : Nat),
      (reconcileAux rem base l).get? i = (l.get? i).map fun tk =>
        { tk with quantity_sold := min (tk.quantity_available - rem (base + i)) tk.quantity_available } := by
  intro l
  induction l with
  | nil => intro base i; simp [reconcileAux]
  | cons tk rest ih =>
    intro base i
    cases i with
    | zero => simp [reconcileAux]
    | succ j =>
      have harith : base + 1 + j = base + (j + 1) := by omega
      simp only [reconcileAux, List.get?_cons_succ, ih (base + 1) j, harith]

theorem reconcile_spec (tickets : List Ticket) (rem : Nat → Int)
    (hb : ∀ tid, 0 ≤ rem tid ∧ rem tid ≤ remainingInit tickets tid) :
    ∀ i, i < tickets.length → ∃ tk, tickets.get? i = some tk ∧
      (reconcile tickets rem).get? i =
        some { tk with quantity_sold := tk.quantity_available - rem (i + 1) } ∧
      0 ≤ tk.quantity_available - rem (i + 1) ∧
      tk.quantity_available - rem (i + 1) ≤ tk.quantity_available := by
  intro i hi
  cases h : tickets.get? i with
  | none =>
    rw [List.get?_eq_none] at h
    omega
  | some tk =>
    refine ⟨tk, rfl, ?_, ?_, ?_⟩
    · unfold reconcile
      rw [reconcileAux_get rem tickets 1 i, h]
      have h1 : (1 : Nat) + i = i + 1 := by omega
      rw [h1]
      have h2 := (hb (i + 1)).1
      have h3 := (hb (i + 1)).2
      rw [remainingInit_get tickets i tk h] at h3
      have hmin : min (tk.quantity_available - rem (i + 1))
          tk.quantity_available = tk.quantity_available - rem (i + 1) :=
        min_eq_left (by omega)
      rw [Option.map_some', hmin]
    · have h2 := (hb (i + 1)).2
      rw [remainingInit_get tickets i tk h] at h2
      have h3 := (hb (i + 1)).1
      omega
    · have h2 := (hb (i + 1)).1
      omega

/-- C5: after the Reconciliation Step (the `quantity_sold` update of both
`main`s) every ticket's final `quantity_sold` equals `quantity_available`
minus the ledger's final remaining count for that ticket, the defensive
clamp `min(_, quantity_available)` being inactive, and consequently
`0 ≤ quantity_sold ≤ quantity_available` — for the ledger left by either
generator (src/data.py, first conjunct; src/v2_data.py, second), fed the
pipeline's initial ledger `remainingInit` over tickets with nonnegative
inventory. -/
theorem c5_reconciliation_quantity_sold (tickets : List Ticket)
    (uids eids : List Nat) (tm : Nat → List Nat) (tp : Nat → ℚ)
    (caps totals0 : Nat → Int) (f : FakeSrc) (t : Tape)
    (hqa : ∀ tk ∈ tickets, 0 ≤ tk.quantity_available) :
    (∀ i, i < tickets.length → ∃ tk, tickets.get? i = some tk ∧
      (reconcile tickets ((V1.regLoop uids eids tm tp f 25000 0
          ⟨[], remainingInit tickets, t, 0⟩).1.remaining)).get? i =
        some { tk with quantity_sold := tk.quantity_available - (V1.regLoop uids eids tm tp f 25000 0 ⟨[], remainingInit tickets, t, 0⟩).1.remaining (i + 1) } ∧
      0 ≤ tk.quantity_available - (V1.regLoop uids eids tm tp f 25000 0
          ⟨[], remainingInit tickets, t, 0⟩).1.remaining (i + 1) ∧
      tk.quantity_available - (V1.regLoop uids eids tm tp f 25000 0
          ⟨[], remainingInit tickets, t, 0⟩).1.remaining (i + 1) ≤
        tk.quantity_available) ∧
    (∀ i, i < tickets.length → ∃ tk, tickets.get? i = some tk ∧
      (reconcile tickets ((V2.regLoop uids eids tm tp caps f 25000 0
          ⟨[], remainingInit tickets, totals0, t, 0⟩).1.remaining)).get? i =
        some { tk with quantity_sold := tk.quantity_available - (V2.regLoop uids eids tm tp caps f 25000 0 ⟨[], remainingInit tickets, totals0, t, 0⟩).1.remaining (i + 1) } ∧
      0 ≤ tk.quantity_available - (V2.regLoop uids eids tm tp caps f 25000 0
          ⟨[], remainingInit tickets, totals0, t, 0⟩).1.remaining (i + 1) ∧
      tk.quantity_available - (V2.regLoop uids eids tm tp caps f 25000 0
          ⟨[], remainingInit tickets, totals0, t, 0⟩).1.remaining (i + 1) ≤
        tk.quantity_available) := by
  constructor
  · apply reconcile_spec
    intro tid
    have hb := v1_loop_rem_bounds uids eids tm tp f 25000 0
      ⟨[], remainingInit tickets, t, 0⟩ tid
    dsimp only at hb
    have h0 := remainingInit_nonneg tickets hqa tid
    exact ⟨hb.2 h0, hb.1⟩
  · apply reconcile_spec
    intro tid
    have hb := v2_loop_rem_bounds uids eids tm tp caps f 25000 0
      ⟨[], remainingInit tickets, totals0, t, 0⟩ tid
    dsimp only at hb
    have h0 := remainingInit_nonneg tickets hqa tid
    exact ⟨hb.2 h0, hb.1⟩

theorem enumFrom_mem {α : Type} :
    ∀ (l : List α) (k i : Nat) (a : α), (i, a) ∈ enumFrom k l →
      k ≤ i ∧ l.get? (i - k) = some a := by
  intro l
  induction l with
  | nil => intro k i a h; simp [enumFrom] at h
  | cons x rest ih =>
    intro k i a h
    simp only [enumFrom, List.mem_cons] at h
    rcases h with h | h
    · rw [Prod.mk.injEq] at h
      obtain ⟨rfl, rfl⟩ := h
      simp
    · obtain ⟨h1, h2⟩ := ih (k + 1) i a h
      refine ⟨by omega, ?_⟩
      have h3 : i - k = (i - (k + 1)) + 1 := by omega
      rw [h3, List.get?_cons_succ]
      exact h2

theorem paidRegs_mem (regs : List Registration) (i : Nat)
    (r : Registration) (h : (i, r) ∈ paidRegs regs) :
    regs.get? i = some r ∧ r.payment_status = "paid" := by
  unfold paidRegs at h
  rw [List.mem_filter] at h
  have h2 := enumFrom_mem regs 0 i r h.1
  exact ⟨by simpa using h2.2, by simpa using h.2⟩

theorem paymentsLoop_mem (f : FakeSrc) :
    ∀ (lp : List (Nat × Registration)) (k : Nat) (t : Tape) (p : Payment),
      p ∈ paymentsLoop f lp k t →
      ∃ idx reg, (idx, reg) ∈ lp ∧ p.registration_id = idx + 1 ∧
        p.user_id = reg.user_id ∧ p.amount = reg.total_amount := by
  intro lp
  induction lp with
  | nil => intro k t p h; simp [paymentsLoop] at h
  | cons hd rest ih =>
    obtain ⟨idx, reg⟩ := hd
    intro k t p h
    simp only [paymentsLoop, List.mem_cons] at h
    rcases h with h | h
    · subst h
      exact ⟨idx, reg, List.mem_cons_self _ _, rfl, rfl, rfl⟩
    · obtain ⟨i2, r2, hmem, h1, h2, h3⟩ := ih (k + 2) (Tape.tl t) p h
      exact ⟨i2, r2, List.mem_cons_of_mem _ hmem, h1, h2, h3⟩

theorem paymentsLoop_length (f : FakeSrc) :
    ∀ (lp : List (Nat × Registration)) (k : Nat) (t : Tape),
      (paymentsLoop f lp k t).length = lp.length := by
  intro lp
  induction lp with
  | nil => intro k t; rfl
  | cons hd rest ih =>
    obtain ⟨idx, reg⟩ := hd
    intro k t
    simp only [paymentsLoop, List.length_cons, ih (k + 2) (Tape.tl t)]

theorem enumFrom_filter_length (regs : List Registration) :
    ∀ k, ((enumFrom k regs).filter fun p =>
        p.2.payment_status = "paid").length =
      (regs.filter fun r => r.payment_status = "paid").length := by
  induction regs with
  | nil => intro k; rfl
  | cons x rest ih =>
    intro k
    simp only [enumFrom, List.filter_cons]
    by_cases hx : x.payment_status = "paid"
    · simp [hx, ih (k + 1)]
    · simp [hx, ih (k + 1)]

theorem paidRegs_length (regs : List Registration) :
    (paidRegs regs).length = countPaid regs := by
  unfold paidRegs countPaid
  exact enumFrom_filter_length regs 0

/-- C6: `generate_payments` (identical in both source files) returns at
most `min(1000, number of paid registrations)` payments; every payment
points (via its 1-based `registration_id` position) to a registration of
the input sequence whose `payment_status` is paid, and copies that
registration's `total_amount` as its `amount` and its `user_id`. -/
theorem c6_payments_spec (regs : List Registration) (f : FakeSrc)
    (t : Tape) :
    (generate_payments regs f t).length ≤ min 1000 (countPaid regs) ∧
    ∀ p ∈ generate_payments regs f t,
      1 ≤ p.registration_id ∧
      ∃ r, regs.get? (p.registration_id - 1) = some r ∧
        r.payment_status = "paid" ∧ p.amount = r.total_amount ∧
        p.user_id = r.user_id := by
  constructor
  · unfold generate_payments
    rw [paymentsLoop_length, List.length_take, paidRegs_length]
  · intro p hp
    unfold generate_payments at hp
    obtain ⟨idx, reg, hmem, h1, h2, h3⟩ := paymentsLoop_mem f _ 0 t p hp
    have hmem2 : (idx, reg) ∈ paidRegs regs :=
      List.take_subset 1000 _ hmem
    have hpr := paidRegs_mem regs idx reg hmem2
    refine ⟨by omega, reg, ?_, hpr.2, h3, h2⟩
    rw [h1]
    simpa using hpr.1

theorem list_getD_mem {α : Type} (l : List α) (i : Nat) (d : α)
    (h : i < l.length) : l.getD i d ∈ l := by
  rw [List.getD_eq_get?, List.get?_eq_get h]
  exact List.get_mem l i h

theorem nodup_not_mem_eraseIdx {α : Type} :
    ∀ (l : List α) (i : Nat) (d : α), l.Nodup → i < l.length →
      l.getD i d ∉ l.eraseIdx i := by
  intro l
  induction l with
  | nil => intro i d h hi; simp at hi
  | cons x rest ih =>
    intro i d h hi
    cases i with
    | zero =>
      simpa using (List.nodup_cons.mp h).1
    | succ j =>
      simp only [List.getD_cons_succ, List.eraseIdx_cons_succ, List.mem_cons]
      intro hc
      rcases hc with hc | hc
      · have hj : j < rest.length := by simpa using hi
        have hm := list_getD_mem rest j d hj
        rw [hc] at hm
        exact (List.nodup_cons.mp h).1 hm
      · exact ih j d (List.nodup_cons.mp h).2 (by simpa using hi) hc

theorem sample_sub {α : Type} (d : α) :
    ∀ (n : Nat) (pool : List α) (t : Tape), n ≤ pool.length →
      (sample d pool n t).1.length = n ∧
      (∀ x ∈ (sample d pool n t).1, x ∈ pool) ∧
      (pool.Nodup → (sample d pool n t).1.Nodup) := by
  intro n
  induction n with
  | zero =>
    intro pool t h
    exact ⟨rfl, by intro x hx; simp [sample] at hx,
      fun _ => by simp [sample]⟩
  | succ m ih =>
    intro pool t h
    have hlen : 0 < pool.length := by omega
    have hi : t 0 % pool.length < pool.length := Nat.mod_lt _ hlen
    have herase : (pool.eraseIdx (t 0 % pool.length)).length =
        pool.length - 1 := by
      rw [List.length_eraseIdx]
      simp [hi]
    obtain ⟨ih1, ih2, ih3⟩ := ih (pool.eraseIdx (t 0 % pool.length))
      (Tape.tl t) (by omega)
    refine ⟨by simp only [sample, List.length_cons, ih1], ?_, ?_⟩
    · intro x hx
      simp only [sample, List.mem_cons] at hx
      rcases hx with hx | hx
      · rw [hx]
        exact list_getD_mem pool _ d hi
      · exact (List.eraseIdx_sublist pool (t 0 % pool.length)).subset
          (ih2 x hx)
    · intro hnd
      simp only [sample, List.nodup_cons]
      refine ⟨?_, ih3 ((List.eraseIdx_sublist pool _).nodup hnd)⟩
      intro hc
      exact nodup_not_mem_eraseIdx pool (t 0 % pool.length) d hnd hi
        (ih2 _ hc)

theorem waitEntries_spec (e : Nat) (f : FakeSrc) :
    ∀ (us : List Nat) (k : Nat) (t : Tape),
      (waitEntries e f us k t).1.map Waitlist.user_id = us ∧
      ∀ w ∈ (waitEntries e f us k t).1, w.event_id = e := by
  intro us
  induction us with
  | nil =>
    intro k t
    exact ⟨rfl, by intro w hw; simp [waitEntries] at hw⟩
  | cons u us2 ih =>
    intro k t
    obtain ⟨h1, h2⟩ := ih (k + 1) (Tape.tl t)
    simp only [waitEntries]
    constructor
    · simp only [List.map_cons, h1]
    · intro w hw
      rcases List.mem_cons.mp hw with hw | hw
      · rw [hw]
      · exact h2 w hw

theorem genWaitLoop_mem (uids : List Nat) (totals caps : Nat → Int)
    (minw maxw : Int) (f : FakeSrc) :
    ∀ (es : List Nat) (k : Nat) (t : Tape) (w : Waitlist),
      w ∈ genWaitLoop uids totals caps minw maxw f es k t →
      w.event_id ∈ es ∧ caps w.event_id ≤ totals w.event_id := by
  intro es
  induction es with
  | nil => intro k t w h; simp [genWaitLoop] at h
  | cons e rest ih =>
    intro k t w h
    simp only [genWaitLoop] at h
    by_cases hc : caps e ≤ totals e
    · rw [if_pos hc] at h
      rcases List.mem_append.mp h with h | h
      · have hev := (waitEntries_spec e f _ _ _).2 w h
        rw [hev]
        exact ⟨List.mem_cons_self _ _, hc⟩
      · obtain ⟨h1, h2⟩ := ih _ _ w h
        exact ⟨List.mem_cons_of_mem _ h1, h2⟩
    · rw [if_neg hc] at h
      obtain ⟨h1, h2⟩ := ih _ _ w h
      exact ⟨List.mem_cons_of_mem _ h1, h2⟩

theorem genWaitLoop_event_block (uids : List Nat)
    (totals caps : Nat → Int) (f : FakeSrc) :
    ∀ (es : List Nat) (k : Nat) (t : Tape) (e : Nat),
      es.Nodup → e ∈ es → caps e ≤ totals e → uids.Nodup →
      (∃ n : Nat, 10 ≤ n ∧ n ≤ 50 ∧
        ((genWaitLoop uids totals caps 10 50 f es k t).filter
          (fun w => w.event_id = e)).length = min n uids.length) ∧
      (((genWaitLoop uids totals caps 10 50 f es k t).filter
        (fun w => w.event_id = e)).map Waitlist.user_id).Nodup := by
  intro es
  induction es with
  | nil => intro k t e _ he; simp at he
  | cons e0 rest ih =>
    intro k t e hnd he hcap hu
    simp only [genWaitLoop]
    by_cases heq : e0 = e
    · subst heq
      rw [if_pos hcap, List.filter_append]
      have hnum := randint_le 10 50 t (by norm_num)
      have hsel := sample_sub 0 (min (randint 10 50 t).toNat uids.length)
        uids (Tape.tl t) (min_le_right _ _)
      have hws := waitEntries_spec e0 f
        (sample 0 uids (min (randint 10 50 t).toNat uids.length)
          (Tape.tl t)).1 k
        (sample 0 uids (min (randint 10 50 t).toNat uids.length)
          (Tape.tl t)).2
      have hfb : (waitEntries e0 f
          (sample 0 uids (min (randint 10 50 t).toNat uids.length)
            (Tape.tl t)).1 k
          (sample 0 uids (min (randint 10 50 t).toNat uids.length)
            (Tape.tl t)).2).1.filter (fun w => w.event_id = e0) =
          (waitEntries e0 f
          (sample 0 uids (min (randint 10 50 t).toNat uids.length)
            (Tape.tl t)).1 k
          (sample 0 uids (min (randint 10 50 t).toNat uids.length)
            (Tape.tl t)).2).1 :=
        List.filter_eq_self.mpr (fun w hw => by simp [hws.2 w hw])
      have hfr : (genWaitLoop uids totals caps 10 50 f rest
          (waitEntries e0 f
            (sample 0 uids (min (randint 10 50 t).toNat uids.length)
              (Tape.tl t)).1 k
            (sample 0 uids (min (randint 10 50 t).toNat uids.length)
              (Tape.tl t)).2).2.1
          (waitEntries e0 f
            (sample 0 uids (min (randint 10 50 t).toNat uids.length)
              (Tape.tl t)).1 k
            (sample 0 uids (min (randint 10 50 t).toNat uids.length)
              (Tape.tl t)).2).2.2).filter (fun w => w.event_id = e0) =
          [] := by
        rw [List.filter_eq_nil]
        intro w hw
        have hm := (genWaitLoop_mem uids totals caps 10 50 f rest _ _ w
          hw).1
        have hne : ¬ w.event_id = e0 :=
          fun hq => (List.nodup_cons.mp hnd).1 (hq ▸ hm)
        simpa using hne
      rw [hfb, hfr, List.append_nil]
      have hlen : (waitEntries e0 f
          (sample 0 uids (min (randint 10 50 t).toNat uids.length)
            (Tape.tl t)).1 k
          (sample 0 uids (min (randint 10 50 t).toNat uids.length)
            (Tape.tl t)).2).1.length =
          min (randint 10 50 t).toNat uids.length := by
        have h1 := congrArg List.length hws.1
        rw [List.length_map] at h1
        rw [h1, hsel.1]
      constructor
      · exact ⟨(randint 10 50 t).toNat, by omega, by omega, by rw [hlen]⟩
      · rw [hws.1]
        exact hsel.2.2 hu
    · have he2 : e ∈ rest := by
        rcases List.mem_cons.mp he with h | h
        · exact absurd h.symm heq
        · exact h
      have hnd2 := (List.nodup_cons.mp hnd).2
      by_cases hc : caps e0 ≤ totals e0
      · rw [if_pos hc, List.filter_append]
        have hfb : (waitEntries e0 f
            (sample 0 uids (min (randint 10 50 t).toNat uids.length)
              (Tape.tl t)).1 k
            (sample 0 uids (min (randint 10 50 t).toNat uids.length)
              (Tape.tl t)).2).1.filter (fun w => w.event_id = e) = [] := by
          rw [List.filter_eq_nil]
          intro w hw
          have hev := (waitEntries_spec e0 f _ _ _).2 w hw
          rw [hev]
          simpa using heq
        rw [hfb, List.nil_append]
        exact ih _ _ e hnd2 he2 hcap hu
      · rw [if_neg hc]
        exact ih _ _ e hnd2 he2 hcap hu

/-- C7: `generate_waitlists` (src/v2_data.py, with `main`'s bounds 10 and
50 and totals computed by `calculate_total_registrations` from the final
registration list) emits entries only for events whose aggregate
registered quantity reaches their capacity — so none for under-capacity
events — and for each such event it emits `min(n, len(user_ids))` entries
for some n in [10, 50], each for a distinct user. -/
theorem c7_waitlists_spec (uids eids : List Nat)
    (regs : List Registration) (caps : Nat → Int) (f : FakeSrc) (t : Tape)
    (hu : uids.Nodup) (he : eids.Nodup) :
    (∀ w ∈ generate_waitlists uids eids
        (V2.calculate_total_registrations regs) caps 10 50 f t,
      w.event_id ∈ eids ∧
      caps w.event_id ≤ V2.calculate_total_registrations regs w.event_id) ∧
    (∀ e ∈ eids, caps e ≤ V2.calculate_total_registrations regs e →
      (∃ n : Nat, 10 ≤ n ∧ n ≤ 50 ∧
        ((generate_waitlists uids eids
          (V2.calculate_total_registrations regs) caps 10 50 f t).filter
          (fun w => w.event_id = e)).length = min n uids.length) ∧
      (((generate_waitlists uids eids
        (V2.calculate_total_registrations regs) caps 10 50 f t).filter
        (fun w => w.event_id = e)).map Waitlist.user_id).Nodup) := by
  constructor
  · intro w hw
    exact genWaitLoop_mem uids _ caps 10 50 f eids 0 t w hw
  · intro e hee hcap
    exact genWaitLoop_event_block uids _ caps f eids 0 t e he hee hcap hu

theorem genTicketsLoop_mem (caps : Nat → Int) (f : FakeSrc) :
    ∀ (es : List Nat) (k : Nat) (t : Tape) (tk : Ticket),
      tk ∈ V2.genTicketsLoop caps f es k t → tk.event_id ∈ es := by
  intro es
  induction es with
  | nil => intro k t tk h; simp [V2.genTicketsLoop] at h
  | cons e rest ih =>
    intro k t tk h
    simp only [V2.genTicketsLoop, List.mem_cons] at h
    rcases h with h | h | h
    · rw [h]
      exact List.mem_cons_self _ _
    · rw [h]
      exact List.mem_cons_self _ _
    · exact List.mem_cons_of_mem _ (ih _ _ tk h)

theorem genTicketsLoop_event (caps : Nat → Int) (f : FakeSrc) :
    ∀ (es : List Nat) (k : Nat) (t : Tape) (e : Nat),
      es.Nodup → e ∈ es →
      ∃ g v : Ticket,
        (V2.genTicketsLoop caps f es k t).filter
          (fun tk => tk.event_id = e) = [g, v] ∧
        g.quantity_available ≤ Int.fdiv (caps e) 2 ∧
        g.quantity_available + v.quantity_available ≤ caps e := by
  intro es
  induction es with
  | nil => intro k t e _ he; simp at he
  | cons e0 rest ih =>
    intro k t e hnd he
    simp only [V2.genTicketsLoop]
    by_cases heq : e0 = e
    · subst heq
      have hga := randint_le (min 300 (Int.fdiv (caps e0) 2))
        (min 1000 (Int.fdiv (caps e0) 2)) t (by omega)
      have hvip := randint_le
        (min 300 (caps e0 - randint (min 300 (Int.fdiv (caps e0) 2))
          (min 1000 (Int.fdiv (caps e0) 2)) t))
        (min 600 (caps e0 - randint (min 300 (Int.fdiv (caps e0) 2))
          (min 1000 (Int.fdiv (caps e0) 2)) t))
        (Tape.tl t) (by omega)
      have hrest : (V2.genTicketsLoop caps f rest (k + 6)
          (Tape.tl (Tape.tl (Tape.tl (Tape.tl t))))).filter
          (fun tk => tk.event_id = e0) = [] := by
        rw [List.filter_eq_nil]
        intro tk htk
        have hm := genTicketsLoop_mem caps f rest _ _ tk htk
        have hne : ¬ tk.event_id = e0 :=
          fun hq => (List.nodup_cons.mp hnd).1 (hq ▸ hm)
        simpa using hne
      refine ⟨⟨e0, "General Admission",
          round2 (randuniform 20 50 (Tape.tl (Tape.tl t))),
          randint (min 300 (Int.fdiv (caps e0) 2))
            (min 1000 (Int.fdiv (caps e0) 2)) t, 0,
          f.dateTime k, f.futureDt (k + 1), f.dateTime (k + 2)⟩,
        ⟨e0, "VIP", round2 (randuniform 50 150 (Tape.tl (Tape.tl (Tape.tl t)))),
          randint (min 300 (caps e0 - randint (min 300 (Int.fdiv (caps e0) 2))
              (min 1000 (Int.fdiv (caps e0) 2)) t))
            (min 600 (caps e0 - randint (min 300 (Int.fdiv (caps e0) 2))
              (min 1000 (Int.fdiv (caps e0) 2)) t)) (Tape.tl t),
          0, f.dateTime (k + 3), f.futureDt (k + 4), f.dateTime (k + 5)⟩,
        ?_, ?_, ?_⟩
      · rw [List.filter_cons_of_pos (by simp),
          List.filter_cons_of_pos (by simp), hrest]
      · dsimp only
        omega
      · dsimp only
        omega
    · have he2 : e ∈ rest := by
        rcases List.mem_cons.mp he with h | h
        · exact absurd h.symm heq
        · exact h
      have hnd2 := (List.nodup_cons.mp hnd).2
      obtain ⟨g, v, h1, h2, h3⟩ := ih (k + 6)
        (Tape.tl (Tape.tl (Tape.tl (Tape.tl t)))) e hnd2 he2
      refine ⟨g, v, ?_, h2, h3⟩
      rw [List.filter_cons_of_neg (by simp [heq]),
        List.filter_cons_of_neg (by simp [heq]), h1]

/-- C10: in src/v2_data.py `generate_tickets`, for every event (with
nonnegative capacity, as the pipeline supplies), the pair of generated
tickets satisfies `ga_quantity ≤ capacity // 2` (Python floor division,
`Int.fdiv`) and `ga_quantity + vip_quantity ≤ capacity`: the sum of an
event's tickets' `quantity_available` never exceeds the event's
capacity. -/
theorem c10_tickets_within_capacity (eids : List Nat) (caps : Nat → Int)
    (f : FakeSrc) (t : Tape) (he : eids.Nodup)
    (hc : ∀ e ∈ eids, 0 ≤ caps e) :
    ∀ e ∈ eids, ∃ g v : Ticket,
      (V2.generate_tickets eids caps f t).filter
        (fun tk => tk.event_id = e) = [g, v] ∧
      g.quantity_available ≤ Int.fdiv (caps e) 2 ∧
      g.quantity_available + v.quantity_available ≤ caps e ∧
      (((V2.generate_tickets eids caps f t).filter
        (fun tk => tk.event_id = e)).map Ticket.quantity_available).sum ≤
        caps e := by
  intro e hee
  obtain ⟨g, v, h1, h2, h3⟩ :=
    genTicketsLoop_event caps f eids 0 t e he hee
  refine ⟨g, v, h1, h2, h3, ?_⟩
  show (((V2.genTicketsLoop caps f eids 0 t).filter
    (fun tk => tk.event_id = e)).map Ticket.quantity_available).sum ≤ caps e
  rw [h1]
  simpa using h3

/-- Witness: the amended C1 theorem applied at the concrete scenario
(capacity 3 everywhere), its hypothesis discharged by evaluation. -/
theorem c1_amended_event_capacity_v2_witness :
    (∀ e, (0 : Int) ≤ capsCex e) ∧
    (∀ e, eventSum e (V2.generate_registrations [1] [1] tmCex tpCex remCex
      capsCex (fun _ => 0) fakeCex tapeCex) ≤ capsCex e) :=
  ⟨fun e => show (0 : Int) ≤ 3 by decide,
    (c1_amended_event_capacity_v2 [1] [1] tmCex tpCex remCex capsCex
      fakeCex tapeCex (fun e => show (0 : Int) ≤ 3 by decide)).1⟩

/-- Witness: C8 applied at a concrete empty ticket map, showing an
under-target (empty) registration list. -/
theorem c8_generate_registrations_terminates_witness :
    (∀ e : Nat, (fun _ : Nat => ([] : List Nat)) e = []) ∧
    V1.generate_registrations [1] [1] (fun _ => []) tpCex remCex fakeCex
      zeroTape = [] :=
  ⟨fun e => rfl,
    (c8_generate_registrations_terminates [1] [1] (fun _ => []) tpCex
      remCex capsCex (fun _ => 0) fakeCex zeroTape 0).2.2.2.2.2.2
      (fun e => rfl)⟩

/-- Witness: the amended C2 theorem applied at the concrete scenario's
first draw, all feasibility hypotheses discharged by evaluation. -/
theorem c2_amended_quantity_uniform_v2_witness :
    ((1 : Nat) = pick [1] (Tape.tl coreCex.t) 0) ∧
    ((1 : Nat) = pick (tmCex 1) (Tape.tl (Tape.tl coreCex.t)) 0) ∧
    (¬ tmCex 1 = []) ∧
    (0 < coreCex.remaining 1) ∧
    (0 < capsCex 1 - coreCex.totals 1) ∧
    ∃ r : Registration,
      (V2.regTry [1] [1] tmCex tpCex capsCex fakeCex coreCex).regs =
        coreCex.regs ++ [r] ∧
      r.quantity =
        randint 1 (min (min 5 (coreCex.remaining 1))
          (capsCex 1 - coreCex.totals 1))
          (Tape.tl (Tape.tl (Tape.tl coreCex.t))) ∧
      1 ≤ r.quantity ∧
      r.quantity ≤ min (min 5 (coreCex.remaining 1))
        (capsCex 1 - coreCex.totals 1) ∧
      r.payment_status =
        (if randfloat (Tape.tl (Tape.tl (Tape.tl (Tape.tl coreCex.t)))) < 2/5
          then "paid" else "unpaid") :=
  ⟨by decide, by decide, by decide, by decide, by decide,
    c2_amended_quantity_uniform_v2 [1] [1] tmCex tpCex capsCex fakeCex
      coreCex 1 1 (by decide) (by decide) (by decide) (by decide)
      (by decide)⟩

/-- Witness: C5 applied to a concrete one-ticket table and the src/data.py
generator run of the concrete scenario, hypotheses discharged by
evaluation. -/
theorem c5_reconciliation_quantity_sold_witness :
    (∀ tk ∈ [ticketCexA], 0 ≤ tk.quantity_available) ∧
    (0 : Nat) < [ticketCexA].length ∧
    ∃ tk, [ticketCexA].get? 0 = some tk ∧
      (reconcile [ticketCexA] ((V1.regLoop [1] [1] tmCex tpCex fakeCex
          25000 0 ⟨[], remainingInit [ticketCexA], tapeCex, 0⟩).1.remaining)).get? 0 =
        some { tk with quantity_sold := tk.quantity_available - (V1.regLoop [1] [1] tmCex tpCex fakeCex 25000 0 ⟨[], remainingInit [ticketCexA], tapeCex, 0⟩).1.remaining (0 + 1) } ∧
      0 ≤ tk.quantity_available - (V1.regLoop [1] [1] tmCex tpCex fakeCex
          25000 0 ⟨[], remainingInit [ticketCexA], tapeCex, 0⟩).1.remaining
          (0 + 1) ∧
      tk.quantity_available - (V1.regLoop [1] [1] tmCex tpCex fakeCex
          25000 0 ⟨[], remainingInit [ticketCexA], tapeCex, 0⟩).1.remaining
          (0 + 1) ≤ tk.quantity_available :=
  ⟨by decide, by decide,
    (c5_reconciliation_quantity_sold [ticketCexA] [1] [1] tmCex tpCex
      capsCex (fun _ => 0) fakeCex tapeCex (by decide)).1 0 (by decide)⟩

/-- Witness: C6 applied to a one-registration list; the generated payment
is evaluated concretely and traced back to its paid registration. -/
theorem c6_payments_spec_witness :
    payCex ∈ generate_payments [regCex] fakeCex zeroTape ∧
    (1 ≤ payCex.registration_id ∧
      ∃ r, [regCex].get? (payCex.registration_id - 1) = some r ∧
        r.payment_status = "paid" ∧ payCex.amount = r.total_amount ∧
        payCex.user_id = r.user_id) :=
  ⟨by decide,
    (c6_payments_spec [regCex] fakeCex zeroTape).2 payCex (by decide)⟩

/-- Witness: C7 applied to a sold-out concrete event (capacity 3,
registered quantity 5) with two users, hypotheses discharged by
evaluation. -/
theorem c7_waitlists_spec_witness :
    ([1, 2] : List Nat).Nodup ∧ ([1] : List Nat).Nodup ∧
    (1 : Nat) ∈ ([1] : List Nat) ∧
    capsCex 1 ≤ V2.calculate_total_registrations [regCex] 1 ∧
    ((∃ n : Nat, 10 ≤ n ∧ n ≤ 50 ∧
      ((generate_waitlists [1, 2] [1]
        (V2.calculate_total_registrations [regCex]) capsCex 10 50 fakeCex
        zeroTape).filter (fun w => w.event_id = 1)).length =
        min n ([1, 2] : List Nat).length) ∧
    (((generate_waitlists [1, 2] [1]
      (V2.calculate_total_registrations [regCex]) capsCex 10 50 fakeCex
      zeroTape).filter (fun w => w.event_id = 1)).map
      Waitlist.user_id).Nodup) :=
  ⟨by decide, by decide, by decide, by decide,
    (c7_waitlists_spec [1, 2] [1] [regCex] capsCex fakeCex zeroTape
      (by decide) (by decide)).2 1 (by decide) (by decide)⟩

/-- Witness: C10 applied to one event of capacity 3, hypotheses
discharged by evaluation. -/
theorem c10_tickets_within_capacity_witness :
    ([1] : List Nat).Nodup ∧ (∀ e ∈ ([1] : List Nat), 0 ≤ capsCex e) ∧
    (1 : Nat) ∈ ([1] : List Nat) ∧
    ∃ g v : Ticket,
      (V2.generate_tickets [1] capsCex fakeCex zeroTape).filter
        (fun tk => tk.event_id = 1) = [g, v] ∧
      g.quantity_available ≤ Int.fdiv (capsCex 1) 2 ∧
      g.quantity_available + v.quantity_available ≤ capsCex 1 ∧
      (((V2.generate_tickets [1] capsCex fakeCex zeroTape).filter
        (fun tk => tk.event_id = 1)).map Ticket.quantity_available).sum ≤
        capsCex 1 :=
  ⟨by decide, by decide, by decide,
    c10_tickets_within_capacity [1] capsCex fakeCex zeroTape (by decide)
      (by decide) 1 (by decide)⟩
